import Mathlib

/-!
Shallow embedding of the retrieval orchestration core of the
engineering-knowledge RAG pipeline (sources under src/: src/rag/gating.py,
src/rag/ood.py, src/rag/coverage.py, src/rag/retriever.py,
src/rag/tiebreakers.py, src/rag/catalog.py, src/rag/entity_extract.py,
src/rag/formatting.py, src/rag/ambiguity.py, src/rag/chain.py,
src/config.py, src/schemas.py).

Modelling conventions:
- Python float distances and similarities are modelled as exact rationals.
- A compiled regular expression is modelled as its observable behaviour at
  the call sites, namely a predicate String to Bool standing for
  pattern.search(text) being truthy.
- Python dicts that are iterated in insertion order are modelled as
  association lists.
- list.sort(key=...) (a stable ascending sort) is modelled by a stable
  insertion sort with a strict "must come before" comparator.
- math.sqrt has no rational counterpart; it is threaded through the
  tie-breaker definitions as an abstract function parameter sqrtq, so every
  theorem below holds for all interpretations of the square root.
-/

/- Batteries marks the rational operations irreducible, which blocks
elaboration-time evaluation of concrete counterexamples and witnesses; for
this file they are restored to ordinary reducibility. -/
attribute [local semireducible] Rat.add Rat.sub Rat.mul Rat.inv
  Rat.ofScientific

namespace RagSpec

/-- Drop leading whitespace characters. -/
def stripLeading : List Char → List Char
  | [] => []
  | c :: cs => if c.isWhitespace then stripLeading cs else c :: cs

/-- Python str.strip(): drop leading and trailing whitespace. -/
def pyStrip (s : String) : String :=
  ⟨(stripLeading ((stripLeading s.data).reverse)).reverse⟩

/-- Python str.lower(), character-wise. -/
def pyLower (s : String) : String :=
  ⟨s.data.map Char.toLower⟩

/-- Code-point lexicographic comparison of character lists (Python string
ordering). -/
def charListLt : List Char → List Char → Bool
  | [], [] => false
  | [], _ :: _ => true
  | _ :: _, [] => false
  | a :: as, b :: bs =>
    if a < b then true else if b < a then false else charListLt as bs

/-- Python string less-than. -/
def pyStrLt (a b : String) : Bool :=
  charListLt a.data b.data

/-- Python slice xs[: stop] where stop may be any int (negative stops count
from the end, as in Python). -/
def pySlice {α : Type} (xs : List α) (stop : Int) : List α :=
  if 0 ≤ stop then xs.take stop.toNat
  else xs.take (xs.length - stop.natAbs)

/-- Insert x into l, placing it before the first element y such that y does
not have to come before x. With lt a b read as "a sorts strictly before b"
this yields a stable insertion sort matching Python list.sort. -/
def insertSorted {α : Type} (lt : α → α → Bool) (x : α) : List α → List α
  | [] => [x]
  | y :: ys => if lt y x then y :: insertSorted lt x ys else x :: y :: ys

/-- Stable ascending sort with respect to the strict comparator lt; the model
of Python list.sort / sorted with a key. -/
def sortBy {α : Type} (lt : α → α → Bool) (l : List α) : List α :=
  l.foldr (insertSorted lt) []

theorem mem_insertSorted {α : Type} (lt : α → α → Bool) (x a : α) :
    ∀ l : List α, a ∈ insertSorted lt x l ↔ a = x ∨ a ∈ l := by
  intro l
  induction l with
  | nil => simp [insertSorted]
  | cons y ys ih =>
    simp only [insertSorted]
    by_cases h : lt y x = true
    · simp only [h, if_true, List.mem_cons, ih]
      try tauto
    · simp only [h, if_false, Bool.false_eq_true, List.mem_cons]
      try tauto

theorem mem_sortBy {α : Type} (lt : α → α → Bool) (a : α) :
    ∀ l : List α, a ∈ sortBy lt l ↔ a ∈ l := by
  intro l
  induction l with
  | nil => simp [sortBy]
  | cons y ys ih =>
    simp only [sortBy, List.foldr] at *
    rw [mem_insertSorted]
    simp only [ih, List.mem_cons]
    try tauto

theorem length_insertSorted {α : Type} (lt : α → α → Bool) (x : α) :
    ∀ l : List α, (insertSorted lt x l).length = l.length + 1 := by
  intro l
  induction l with
  | nil => rfl
  | cons y ys ih =>
    simp only [insertSorted]
    by_cases h : lt y x = true
    · simp [h, ih]
    · simp [h]

theorem length_sortBy {α : Type} (lt : α → α → Bool) :
    ∀ l : List α, (sortBy lt l).length = l.length := by
  intro l
  induction l with
  | nil => rfl
  | cons y ys ih =>
    simp only [sortBy, List.foldr] at *
    rw [length_insertSorted]
    simp [ih]

/-! ## Data model (src/schemas.py, langchain Document metadata) -/

/-- The metadata fields the pipeline reads from a langchain Document.
Absent dict keys are modelled as none / []. -/
structure DocMeta where
  source : Option String := none
  page : Option Int := none
  domain : Option String := none
  doc_type : Option String := none
  product : Option String := none
  vendor : Option String := none
  version : Option String := none
  entities : List String := []
  deriving DecidableEq, Repr

/-- langchain_core.documents.Document as consumed by the pipeline. -/
structure Document where
  page_content : String := ""
  metadata : DocMeta := {}
  deriving DecidableEq, Repr

instance : Inhabited Document := ⟨{}⟩

/-- schemas.ScoredDocument: a document plus its L2 distance. -/
structure ScoredDocument where
  doc : Document
  score : ℚ
  deriving DecidableEq, Repr

/-- schemas.RetrievalStatusEnum values. -/
inductive RetrievalStatus where
  | ok
  | refuse
  | ambiguous
  deriving DecidableEq, Repr

/-- Result of formatting.normalize_page: an int page or a string
(the source returns the string "n/a" for missing pages). -/
inductive PageVal where
  | pint (n : Int)
  | pstr (s : String)
  deriving DecidableEq, Repr

/-- formatting.normalize_page for the page values that occur in the model
(an int or a missing key). -/
def normalize_page (page : Option Int) : PageVal :=
  match page with
  | none => .pstr ("n/a")
  | some n => .pint n

/-- Python str(page) on a normalized page value. -/
def pageToString (p : PageVal) : String :=
  match p with
  | .pint n => toString n
  | .pstr s => s

/-- schemas.SourceRef. -/
structure SourceRef where
  filename : String
  page : PageVal
  deriving DecidableEq, Repr

/-- schemas.RetrievalOption. -/
structure RetrievalOption where
  option_id : Int
  docs : List Document
  sources : List SourceRef
  best_l2 : ℚ
  deriving DecidableEq, Repr

instance : Inhabited RetrievalOption := ⟨⟨0, [], [], 0⟩⟩

/-- schemas.RetrievalState (a TypedDict; absent optional keys are modelled by
none, and skip_llm by false, which is how every read site defaults them). -/
structure RetrievalState where
  input : String := ""
  docs : List Document := []
  context : Option String := none
  answer : Option String := none
  status : Option RetrievalStatus := none
  refusal_reason : Option String := none
  options : Option (List RetrievalOption) := none
  selected_option : Option Int := none
  skip_llm : Bool := false
  deriving DecidableEq, Repr

/-- Characters after the last slash. -/
def basenameChars : List Char → List Char → List Char
  | [], acc => acc.reverse
  | c :: cs, acc =>
    if c = '/' then basenameChars cs [] else basenameChars cs (c :: acc)

/-- pathlib.Path(s).name: the final path component. -/
def basename (s : String) : String :=
  ⟨basenameChars s.data []⟩

/-! ## Gating (src/rag/gating.py) -/

/-- gating.GateConfig. Note: the dataclass has no soft threshold field; the
configured soft_max_l2 value (src/config.py) is never consumed by gating. -/
structure GateConfig where
  final_k : Int
  max_l2 : ℚ
  min_keep : Int
  min_gap : Option ℚ := none
  deriving DecidableEq, Repr

/-- gating._validate_absolute_gate: best match must be within max_l2. -/
def _validate_absolute_gate (scored : List ScoredDocument) (max_l2 : ℚ) : Bool :=
  match scored with
  | [] => false
  | sd :: _ => decide (sd.score ≤ max_l2)

/-- gating._validate_confidence_gap_gate. same_file compares the raw
metadata source values (None equals None in Python); pages_close requires
both pages to be ints within distance 2. -/
def _validate_confidence_gap_gate (scored : List ScoredDocument)
    (min_gap : Option ℚ) : Bool :=
  match min_gap with
  | none => true
  | some g =>
    match scored with
    | [] => false
    | [_] => true
    | s0 :: s1 :: _ =>
      let gap := |s1.score - s0.score|
      let same_file : Bool := decide (s0.doc.metadata.source = s1.doc.metadata.source)
      let pages_close : Bool :=
        match s0.doc.metadata.page, s1.doc.metadata.page with
        | some p0, some p1 => decide (|p0 - p1| ≤ 2)
        | _, _ => false
      if decide (gap < g) && ! (same_file && pages_close) then false else true

/-- gating._validate_density_gate: keep candidates with score at most max_l2,
provided at least min_keep remain. -/
def _validate_density_gate (scored : List ScoredDocument) (max_l2 : ℚ)
    (min_keep : Int) : Option (List ScoredDocument) :=
  let relevant := scored.filter (fun sd => decide (sd.score ≤ max_l2))
  if min_keep ≤ (relevant.length : Int) then some relevant else none

/-- gating.gate_scored_docs_l2: absolute gate, then density gate, then trim
to final_k, then confidence-gap gate. -/
def gate_scored_docs_l2 (scored : List ScoredDocument) (cfg : GateConfig) :
    List Document × RetrievalStatus :=
  if ¬ _validate_absolute_gate scored cfg.max_l2 then ([], .refuse)
  else
    match _validate_density_gate scored cfg.max_l2 cfg.min_keep with
    | none => ([], .refuse)
    | some relevant =>
      let final_scored := pySlice relevant cfg.final_k
      if ¬ _validate_confidence_gap_gate final_scored cfg.min_gap then
        ([], .ambiguous)
      else
        (final_scored.map (·.doc), .ok)

/-- src/config.py RETRIEVAL_CONFIG max_l2 (the hard L2 threshold). -/
def configMaxL2 : ℚ := 8/10

/-- src/config.py RETRIEVAL_CONFIG soft_max_l2. The key is declared with the
comment "L2 soft distance gate" but no code under src/ ever reads it. -/
def configSoftMaxL2 : ℚ := 105/100

/-- src/config.py RETRIEVAL_CONFIG min_gap. -/
def configMinGap : ℚ := 15/1000

/-- The GateConfig induced by RETRIEVAL_CONFIG (gating.build_gate_config). -/
def configGateConfig : GateConfig :=
  { final_k := 4, max_l2 := configMaxL2, min_keep := 1,
    min_gap := some configMinGap }

/-! ## Tag signatures (src/rag/catalog.py) -/

/-- catalog._norm_tag_value: strip, drop empty, lower-case. -/
def _norm_tag_value (value : Option String) : Option String :=
  match value with
  | none => none
  | some s =>
    let t := pyStrip s
    if t = "" then none else some (pyLower t)

/-- catalog.tag_signature: the core 3-tuple (domain, doc_type, product) or the
strict 5-tuple (adding vendor, version), each field normalized.  Tuples of
both arities are modelled as lists. -/
def tag_signature (meta : DocMeta) (strict : Bool) : List (Option String) :=
  if strict then
    [_norm_tag_value meta.domain, _norm_tag_value meta.doc_type,
     _norm_tag_value meta.product, _norm_tag_value meta.vendor,
     _norm_tag_value meta.version]
  else
    [_norm_tag_value meta.domain, _norm_tag_value meta.doc_type,
     _norm_tag_value meta.product]

/-! ## Formatting helpers (src/rag/formatting.py) -/

/-- formatting.collect_sources: map documents to (basename, normalized page),
deduplicate by that key keeping first occurrences, then stable-sort by
(filename, str(page)). -/
def collectSourcesLoop : List Document → List (String × PageVal) →
    List SourceRef
  | [], _ => []
  | d :: rest, seen =>
    let filename := basename (d.metadata.source.getD ("unknown"))
    let page := normalize_page d.metadata.page
    if (filename, page) ∈ seen then collectSourcesLoop rest seen
    else ⟨filename, page⟩ :: collectSourcesLoop rest ((filename, page) :: seen)

/-- Strict "sorts before" comparator on (filename, str(page)) used by
collect_sources. -/
def sourceRefLt (a b : SourceRef) : Bool :=
  pyStrLt a.filename b.filename ||
    (a.filename = b.filename &&
      pyStrLt (pageToString a.page) (pageToString b.page))

/-- formatting.collect_sources. -/
def collect_sources (docs : List Document) : List SourceRef :=
  sortBy sourceRefLt (collectSourcesLoop docs [])

/-! ## Query-side entity extraction (src/rag/entity_extract.py) -/

/-- entity_extract.EntityExtractor: an insertion-ordered map from canonical
entity to its alias patterns (each pattern modelled as its search
predicate). -/
structure EntityExtractor where
  entity_patterns : List (String × List (String → Bool))

/-- entity_extract.EntityExtractor.extract: entities whose alias list has a
matching pattern, in map order; blank queries yield no entities. -/
def EntityExtractor.extract (ex : EntityExtractor) (query : String) :
    List String :=
  let q := pyStrip query
  if q = "" then []
  else
    ex.entity_patterns.filterMap
      (fun ep => if ep.2.any (fun p => p q) then some ep.1 else none)

/-! ## Ambiguity configuration (src/rag/ambiguity.py) -/

/-- ambiguity.AmbiguityConfig. embed_docs is the order-preserving batch
embedding callable (None when both embedding tie-breakers are disabled). -/
structure AmbiguityConfig where
  max_options : Int := 3
  min_group_gap : Option ℚ := none
  strict_sig : Bool := false
  embed_docs : Option (List String → List (List ℚ)) := none
  enable_sig_tiebreak : Bool := false
  min_sig_sim : Option ℚ := none
  min_sig_sim_gap : Option ℚ := none
  enable_anchor_tiebreak : Bool := false
  min_anchor_sim : Option ℚ := none
  min_anchor_sim_gap : Option ℚ := none
  enable_entity_resolve : Bool := false
  require_full_entity_coverage : Bool := false
  entity_extractor : Option EntityExtractor := none
  keep_ambiguous_for_generic_queries : Bool := false
  generic_query_patterns : List (String → Bool) := []
  facet_query_patterns : List (String → Bool) := []

/-! ## Out-of-domain gate (src/rag/ood.py) -/

/-- ood.OODConfig with compiled patterns modelled as search predicates. -/
structure OODConfig where
  enabled : Bool := true
  allow_patterns : List (String → Bool) := []
  deny_patterns : List (String → Bool) := []

/-- ood._refuse_state: refusal with empty docs, empty answer and skip_llm. -/
def oodRefuseState (state : RetrievalState) (reason : String) :
    RetrievalState :=
  { state with
    skip_llm := true
    status := some .refuse
    docs := []
    answer := some ("")
    refusal_reason := some reason }

/-- ood.ood_gate. A blank query refuses with "Empty or invalid query"; a deny
match or no allow match refuses with "Out of domain"; otherwise the state
passes through unchanged. Pattern search runs on the raw (untrimmed) query,
and the loops return on the first match, which is observationally any
match. -/
def ood_gate (state : RetrievalState) (cfg : OODConfig) : RetrievalState :=
  if ¬ cfg.enabled then state
  else if state.skip_llm then state
  else
    let query := state.input
    if pyStrip query = "" then
      oodRefuseState state ("Empty or invalid query")
    else if cfg.deny_patterns.any (fun p => p query) then
      oodRefuseState state ("Out of domain")
    else if cfg.allow_patterns.any (fun p => p query) then state
    else oodRefuseState state ("Out of domain")

/-! ## Coverage gate (src/rag/coverage.py) -/

/-- coverage.CoverageConfig; each compiled pattern is modelled as the
predicate "search finds a truthy (non-empty) match", matching
coverage._any_match. -/
structure CoverageConfig where
  enabled : Bool := true
  compare_patterns : List (String → Bool) := []
  generic_patterns : List (String → Bool) := []
  entity_patterns : List (String × List (String → Bool)) := []

/-- coverage._refuse: refusal state with canned answer and empty context. -/
def coverageRefuse (state : RetrievalState) (reason : String) :
    RetrievalState :=
  { state with
    skip_llm := true
    status := some .refuse
    docs := []
    context := some ("")
    answer := some ("I don't know based on the provided documents.")
    refusal_reason := some reason }

/-- coverage._extract_unique_entities: union of the docs' trimmed non-blank
metadata entities. -/
def _extract_unique_entities (docs : List Document) : Finset String :=
  docs.foldl
    (fun acc d =>
      acc ∪ (d.metadata.entities.filterMap
        (fun e => let t := pyStrip e; if t = "" then none else some t)).toFinset)
    ∅

/-- The entities_in_query list computed inside coverage.coverage_gate:
entities whose alias patterns match the query, in map order. -/
def coverageQueryEntities (cfg : CoverageConfig) (query : String) :
    List String :=
  cfg.entity_patterns.filterMap
    (fun ep => if ep.2.any (fun p => p query) then some ep.1 else none)

/-- The missing_entities list computed inside coverage.coverage_gate. -/
def coverageMissing (cfg : CoverageConfig) (query : String)
    (docs : List Document) : List String :=
  (coverageQueryEntities cfg query).filter
    (fun e => decide (e ∉ _extract_unique_entities docs))

/-- coverage.coverage_gate. -/
def coverage_gate (state : RetrievalState) (cfg : CoverageConfig) :
    RetrievalState :=
  if ¬ cfg.enabled then state
  else if state.skip_llm then state
  else if pyStrip state.input = "" then
    coverageRefuse state ("Empty or invalid query")
  else if state.docs = [] then state
  else
    let query := state.input
    let is_compare := cfg.compare_patterns.any (fun p => p query)
    let is_generic := cfg.generic_patterns.any (fun p => p query)
    let entities_in_query := coverageQueryEntities cfg query
    let missing_entities := coverageMissing cfg query state.docs
    if is_compare && decide (2 ≤ entities_in_query.length) &&
        ! missing_entities.isEmpty then
      coverageRefuse state
        ("Missing document coverage for: " ++
          String.intercalate (", ") missing_entities)
    else if is_generic && ! entities_in_query.isEmpty &&
        ! missing_entities.isEmpty then
      coverageRefuse state
        ("Missing document coverage for: " ++
          String.intercalate (", ") missing_entities)
    else state

/-! ## Fetch sizing (src/rag/chain.py) -/

/-- chain._calculate_safe_fetch_k: raises for final_k below 1 (modelled as an
error result); otherwise the maximum of the configured fetch_k and
final_k + 2 * max_options + buffer. -/
def _calculate_safe_fetch_k (fetch_k final_k max_options : Int)
    (buffer : Int := 2) : Except String Int :=
  if final_k < 1 then
    .error ("final_k must be at least 1, got " ++ toString final_k)
  else
    .ok (max (final_k + 2 * max_options + buffer) fetch_k)

/-- The fetch_k wiring in chain.build_rag_chain: _calculate_safe_fetch_k with
the default buffer of 2. -/
def buildRagChainFetchK (fetch_k final_k max_options : Int) :
    Except String Int :=
  _calculate_safe_fetch_k fetch_k final_k max_options 2

/-! ## Retriever helpers (src/rag/retriever.py) -/

/-- retriever._ok_state. -/
def _ok_state (state : RetrievalState) (docs : List Document) :
    RetrievalState :=
  { state with
    docs := docs
    status := some .ok
    options := some []
    selected_option := none
    refusal_reason := none }

/-- retriever._refuse_state. -/
def _refuse_state (state : RetrievalState) (reason : String) :
    RetrievalState :=
  { state with
    docs := []
    status := some .refuse
    options := some []
    selected_option := none
    refusal_reason := some reason }

/-- retriever._ambiguous_state. -/
def _ambiguous_state (state : RetrievalState)
    (options : List RetrievalOption) : RetrievalState :=
  { state with
    docs := []
    status := some .ambiguous
    options := some options
    selected_option := none
    refusal_reason := none }

/-- retriever._is_from_same_file: both sources truthy and equal basenames. -/
def _is_from_same_file (a b : Document) : Bool :=
  match a.metadata.source, b.metadata.source with
  | some sa, some sb =>
    if sa = "" ∨ sb = "" then false else basename sa = basename sb
  | _, _ => false

/-- retriever._is_pattern_match: any pattern matches the trimmed query,
optionally guarded by the keep_ambiguous_for_generic_queries switch. -/
def _is_pattern_match (query : String) (patterns : List (String → Bool))
    (cfg : AmbiguityConfig) (require_keep_ambiguous : Bool) : Bool :=
  if require_keep_ambiguous && ! cfg.keep_ambiguous_for_generic_queries then
    false
  else
    let q := pyStrip query
    if q = "" then false else patterns.any (fun p => p q)

/-- retriever._is_generic_query. -/
def _is_generic_query (query : String) (cfg : AmbiguityConfig) : Bool :=
  _is_pattern_match query cfg.generic_query_patterns cfg true

/-- retriever._is_facet_query. -/
def _is_facet_query (query : String) (cfg : AmbiguityConfig) : Bool :=
  _is_pattern_match query cfg.facet_query_patterns cfg false

/-- retriever._is_generic_underspecified. -/
def _is_generic_underspecified (query : String) (cfg : AmbiguityConfig) :
    Bool :=
  if ¬ _is_generic_query query cfg then false
  else if _is_facet_query query cfg then false
  else
    match cfg.entity_extractor with
    | none => true
    | some ex => (ex.extract query).isEmpty

/-- retriever._is_overview_query. -/
def _is_overview_query (query : String) (cfg : AmbiguityConfig) : Bool :=
  _is_generic_query query cfg && ! _is_facet_query query cfg

/-- retriever._get_source_info: (basename of source or "unknown",
str(normalized page)). -/
def _get_source_info (doc : Document) : String × String :=
  (basename (doc.metadata.source.getD ("unknown")),
   pageToString (normalize_page doc.metadata.page))

/-- retriever._doc_signature. -/
def _doc_signature (doc : Document) : String × String :=
  _get_source_info doc

/-- retriever._doc_entities: trimmed non-blank entity strings as a set. -/
def _doc_entities (doc : Document) : Finset String :=
  (doc.metadata.entities.filterMap
    (fun e => let t := pyStrip e; if t = "" then none else some t)).toFinset

/-- retriever._option_signature: the sorted list of (filename, str(page))
pairs of the option's sources. -/
def _option_signature (option : RetrievalOption) : List (String × String) :=
  sortBy (fun a b => pyStrLt a.1 b.1 || (a.1 = b.1 && pyStrLt a.2 b.2))
    (option.sources.map (fun src => (src.filename, pageToString src.page)))

/-- First pass of retriever._deduplicate_options: drop options whose
signature was already seen. -/
def dedupOptionsLoop : List RetrievalOption → List (List (String × String)) →
    List RetrievalOption
  | [], _ => []
  | o :: rest, seen =>
    let s := _option_signature o
    if s ∈ seen then dedupOptionsLoop rest seen
    else o :: dedupOptionsLoop rest (s :: seen)

/-- The renumbering constructor of retriever._deduplicate_options: a fresh
RetrievalOption with option_id set to position + 1. -/
def renumberOption (io : Nat × RetrievalOption) : RetrievalOption :=
  { io.2 with option_id := (io.1 : Int) + 1 }

/-- retriever._deduplicate_options: signature-deduplicate, then renumber
option ids contiguously from 1. -/
def _deduplicate_options (options : List RetrievalOption) :
    List RetrievalOption :=
  (dedupOptionsLoop options []).enum.map renumberOption

/-- retriever._prioritize_documents_for_anchor: the group's documents other
than the anchor, same-file documents first.  Python object identity of the
anchor is modelled as structural equality. -/
def _prioritize_documents_for_anchor (anchor : Document)
    (scored : List ScoredDocument) : List Document :=
  let docs := (scored.map (·.doc)).filter (fun d => ¬ d = anchor)
  docs.filter (fun d => _is_from_same_file anchor d) ++
    docs.filter (fun d => ¬ _is_from_same_file anchor d)

/-- Mutable loop state of retriever._select_distinct_docs; the Python sets
are modelled as membership lists. -/
structure SelState where
  picked : List Document
  seenSigs : List (String × String)
  seenFiles : List String
  seenPages : List String

/-- One candidate step of retriever._select_distinct_docs.  The source's
early return once need is reached is modelled by the leading guard, under
which every later iteration leaves the state unchanged, so the final picked
list coincides. -/
def selStep (need : Int) (phase : Nat) (st : SelState) (c : Document) :
    SelState :=
  if need ≤ (st.picked.length : Int) then st
  else if _doc_signature c ∈ st.seenSigs then st
  else
    let fp := _get_source_info c
    let should_pick : Bool :=
      match phase with
      | 0 => ¬ fp.2 ∈ st.seenPages
      | 1 => ¬ fp.1 ∈ st.seenFiles
      | _ => true
    if should_pick then
      ⟨st.picked ++ [c], _doc_signature c :: st.seenSigs,
       fp.1 :: st.seenFiles, fp.2 :: st.seenPages⟩
    else st

/-- One phase of retriever._select_distinct_docs. -/
def _select_phase (need : Int) (phase : Nat) (candidates : List Document)
    (st : SelState) : SelState :=
  candidates.foldl (selStep need phase) st

/-- retriever._select_distinct_docs: three phases (new page, new filename,
unconditional) over the candidates, each admission recorded in the seen
sets. -/
def _select_distinct_docs (anchor : Document) (candidates : List Document)
    (need : Int) : List Document :=
  if need ≤ 0 then []
  else
    let fp := _get_source_info anchor
    let st0 : SelState := ⟨[], [_doc_signature anchor], [fp.1], [fp.2]⟩
    (([0, 1, 2] : List Nat).foldl
      (fun st phase => _select_phase need phase candidates st) st0).picked

/-- A tag signature (core or strict), as produced by catalog.tag_signature
or the synthetic per-file fallback. -/
abbrev Sig := List (Option String)

/-- retriever._safe_tag_signature: the tag signature, or a synthetic
per-file signature when all fields are null. -/
def _safe_tag_signature (doc : Document) (strict : Bool) : Sig :=
  let sig := tag_signature doc.metadata strict
  if sig.any (fun v => v.isSome) then sig
  else
    let filename := basename (doc.metadata.source.getD ("unknown"))
    let num : Nat := if strict then 5 else 3
    some ("__file__:" ++ filename) :: List.replicate (num - 1) none

/-- The best distance of a bucket; the source indexes group[0] (buckets are
non-empty by construction) and uses 1e18 as sentinel where it guards
explicitly. -/
def headScoreD (g : List ScoredDocument) : ℚ :=
  match g with
  | [] => 10 ^ 18
  | sd :: _ => sd.score

/-- The anchor document of a bucket (the source indexes group[0]; buckets
are non-empty by construction). -/
def headDocD (g : List ScoredDocument) : Document :=
  match g with
  | [] => default
  | sd :: _ => sd.doc

/-- Insertion-ordered bucket insert used by
retriever._group_scored_by_tag_signature (Python defaultdict preserves
insertion order). -/
def groupInsert (sig : Sig) (sd : ScoredDocument) :
    List (Sig × List ScoredDocument) → List (Sig × List ScoredDocument)
  | [] => [(sig, [sd])]
  | b :: rest =>
    if b.1 = sig then (b.1, b.2 ++ [sd]) :: rest
    else b :: groupInsert sig sd rest

/-- retriever._group_scored_by_tag_signature: bucket by safe signature, sort
each bucket by distance, sort buckets by best distance. -/
def _group_scored_by_tag_signature (scored : List ScoredDocument)
    (strict : Bool) : List (List ScoredDocument) :=
  let buckets := scored.foldl
    (fun acc sd => groupInsert (_safe_tag_signature sd.doc strict) sd acc) []
  let groups := buckets.map (fun b => sortBy (fun x y => x.score < y.score) b.2)
  sortBy (fun g h => headScoreD g < headScoreD h) groups

/-- retriever._resolve_by_groups_score_gap: pick the best bucket when its
lead over the runner-up bucket reaches min_group_gap. -/
def _resolve_by_groups_score_gap (groups : List (List ScoredDocument))
    (cfg : AmbiguityConfig) : Option (List Document) :=
  match cfg.min_group_gap, groups with
  | some mg, g0 :: g1 :: _ =>
    let gap := headScoreD g1 - headScoreD g0
    if mg ≤ gap then some (g0.map (·.doc)) else none
  | _, _ => none

/-- retriever._extract_group_entities. -/
def _extract_group_entities (group : List ScoredDocument) : Finset String :=
  group.foldl (fun acc sd => acc ∪ _doc_entities sd.doc) ∅

/-- retriever._docs_entity_hits: members whose entity set meets the query
entities. -/
def _docs_entity_hits (group : List ScoredDocument)
    (query_entities : Finset String) : Nat :=
  if group = [] ∨ query_entities = ∅ then 0
  else (group.filter
    (fun sd => ¬ (_doc_entities sd.doc ∩ query_entities) = ∅)).length

/-- retriever._anchor_entity_hits. -/
def _anchor_entity_hits (group : List ScoredDocument)
    (query_entities : Finset String) : Nat :=
  if group = [] ∨ query_entities = ∅ then 0
  else ((_doc_entities (headDocD group)) ∩ query_entities).card

/-- retriever._group_entity_hits. -/
def _group_entity_hits (group : List ScoredDocument)
    (query_entities : Finset String) : Nat :=
  if group = [] ∨ query_entities = ∅ then 0
  else (_extract_group_entities group ∩ query_entities).card

/-- One row of the entity-resolve tie ranking (idx, anchor_hits, docs_hits,
group_hits, best_l2). -/
structure RankEntry where
  idx : Nat
  anchor_hits : Nat
  docs_hits : Nat
  group_hits : Nat
  best_l2 : ℚ
  deriving DecidableEq, Repr

/-- Strict "sorts before" comparator for the key
(-anchor_hits, -docs_hits, -group_hits, best_l2); also exactly the Python
tuple comparison top_cmp > second_cmp. -/
def rankLt (a b : RankEntry) : Bool :=
  b.anchor_hits < a.anchor_hits ||
    (a.anchor_hits = b.anchor_hits &&
      (b.docs_hits < a.docs_hits ||
        (a.docs_hits = b.docs_hits &&
          (b.group_hits < a.group_hits ||
            (a.group_hits = b.group_hits && a.best_l2 < b.best_l2)))))

/-- The scored_groups list of retriever._resolve_by_entity_coverage:
(index, entity hits, best distance) for each non-empty bucket. -/
def entityScoredGroups (groups : List (List ScoredDocument))
    (query_id : Finset String) : List (Nat × Nat × ℚ) :=
  groups.enum.filterMap
    (fun ig =>
      match ig.2 with
      | [] => none
      | g0 :: _ =>
        some (ig.1, (query_id ∩ _extract_group_entities ig.2).card,
          g0.score))

/-- The winners list of retriever._resolve_by_entity_coverage: indices whose
hit count equals max_hit. -/
def entityWinners (sgs : List (Nat × Nat × ℚ)) (max_hit : Nat) : List Nat :=
  sgs.filterMap (fun t => if t.2.1 = max_hit then some t.1 else none)

/-- One row of the tie ranking of retriever._resolve_by_entity_coverage. -/
def entityRankEntry (groups : List (List ScoredDocument))
    (query_id : Finset String) (idx : Nat) : RankEntry :=
  { idx := idx
    anchor_hits := _anchor_entity_hits (groups.getD idx []) query_id
    docs_hits := _docs_entity_hits (groups.getD idx []) query_id
    group_hits := _group_entity_hits (groups.getD idx []) query_id
    best_l2 := headScoreD (groups.getD idx []) }

/-- The sorted tie ranking of retriever._resolve_by_entity_coverage. -/
def entityRanked (groups : List (List ScoredDocument))
    (query_id : Finset String) (winners : List Nat) : List RankEntry :=
  sortBy rankLt (winners.map (entityRankEntry groups query_id))

/-- retriever._resolve_by_entity_coverage: single winner by entity hits, or
tie-narrowing by (anchor_hits, docs_hits, group_hits, best_l2). -/
def _resolve_by_entity_coverage (groups : List (List ScoredDocument))
    (query : String) (cfg : AmbiguityConfig) :
    Option (List (List ScoredDocument)) :=
  if ¬ cfg.enable_entity_resolve then none
  else
    match cfg.entity_extractor with
    | none => none
    | some ex =>
      let entities_in_query := ex.extract query
      if entities_in_query = [] then none
      else
        let query_id := entities_in_query.toFinset
        let scored_groups := entityScoredGroups groups query_id
        if scored_groups = [] then none
        else
          let max_hit := (scored_groups.map (fun t => t.2.1)).foldl max 0
          if max_hit = 0 then none
          else
            let winners := entityWinners scored_groups max_hit
            if cfg.require_full_entity_coverage ∧ max_hit < query_id.card then
              none
            else
              match winners with
              | [w] => some [groups.getD w []]
              | _ =>
                let ranked := entityRanked groups query_id winners
                let narrowed := sortBy (fun g h => headScoreD g < headScoreD h)
                  (ranked.map (fun e => groups.getD e.idx []))
                match ranked with
                | top :: second :: _ =>
                  if rankLt top second then some [groups.getD top.idx []]
                  else some narrowed
                | _ => some narrowed

/-- Union of the entity sets of a document list (used to track coverage in
retriever._augment_docs_to_cover_entities). -/
def docsCovered (docs : List Document) : Finset String :=
  docs.foldl (fun acc d => acc ∪ _doc_entities d) ∅

/-- The candidate admission loop of
retriever._augment_docs_to_cover_entities. -/
def _augment_loop (query_entities : Finset String) (final_k : Int) :
    List ScoredDocument → List Document → List (String × String) →
    Finset String → List Document
  | [], picked, _, _ => picked
  | sd :: rest, picked, seen, covered =>
    if final_k ≤ (picked.length : Int) then picked
    else if _doc_signature sd.doc ∈ seen then
      _augment_loop query_entities final_k rest picked seen covered
    else if (query_entities \ covered) ∩ _doc_entities sd.doc = ∅ then
      _augment_loop query_entities final_k rest picked seen covered
    else if query_entities \ (covered ∪ _doc_entities sd.doc) = ∅ then
      picked ++ [sd.doc]
    else
      _augment_loop query_entities final_k rest (picked ++ [sd.doc])
        (_doc_signature sd.doc :: seen) (covered ∪ _doc_entities sd.doc)

/-- retriever._augment_docs_to_cover_entities: top up the chosen docs with
candidates that contribute missing query entities, after shrinking the
chosen list to make room when it is already at final_k. -/
def _augment_docs_to_cover_entities (chosen_docs : List Document)
    (candidates : List ScoredDocument) (query_entities : Finset String)
    (final_k : Int) : List Document :=
  if query_entities = ∅ ∨ final_k ≤ 0 then pySlice chosen_docs final_k
  else
    let picked := chosen_docs
    let seen := chosen_docs.map _doc_signature
    let covered := docsCovered chosen_docs
    let missing := query_entities \ covered
    if missing = ∅ then pySlice picked final_k
    else
      let st :=
        if final_k ≤ (picked.length : Int) then
          let reserve := min (final_k - 1) (max 1 (missing.card : Int))
          let keep_n := max 1 (final_k - reserve)
          let trimmed := pySlice picked keep_n
          (trimmed, trimmed.map _doc_signature, docsCovered trimmed)
        else (picked, seen, covered)
      pySlice (_augment_loop query_entities final_k candidates st.1 st.2.1
        st.2.2) final_k

/-! ## Embedding tie-breakers (src/rag/tiebreakers.py).  math.sqrt is an
abstract parameter sqrtq throughout. -/

/-- tiebreakers._dot. -/
def _dot (a b : List ℚ) : ℚ :=
  (a.zip b).foldl (fun acc xy => acc + xy.1 * xy.2) 0

/-- tiebreakers._l2_norm (with the abstract square root). -/
def _l2_norm (sqrtq : ℚ → ℚ) (a : List ℚ) : ℚ :=
  sqrtq (a.foldl (fun acc x => acc + x * x) 0)

/-- tiebreakers.cosine_sim. -/
def cosine_sim (sqrtq : ℚ → ℚ) (a b : List ℚ) : ℚ :=
  let na := _l2_norm sqrtq a
  let nb := _l2_norm sqrtq b
  if na = 0 ∨ nb = 0 then 0 else _dot a b / (na * nb)

/-- tiebreakers._embed_text_cached / the embed_docs([text])[0] idiom.  The
source memoizes this call; for a pure embedding function the cache is
semantically transparent. -/
def _embed_one (embed : List String → List (List ℚ)) (text : String) :
    List ℚ :=
  (embed [text]).getD 0 []

/-- Label one signature field by position
(tiebreakers._render_signature_text). -/
def renderSigParts : Nat → Sig → List String
  | _, [] => []
  | idx, none :: rest => renderSigParts (idx + 1) rest
  | idx, some v :: rest =>
    (match idx with
     | 0 => "domain: " ++ v
     | 1 => "doc_type: " ++ v
     | 2 => "product: " ++ v
     | 3 => "vendor: " ++ v
     | 4 => "version: " ++ v
     | _ => v) :: renderSigParts (idx + 1) rest

/-- tiebreakers._render_signature_text. -/
def _render_signature_text (sig : Sig) : String :=
  let parts := renderSigParts 0 sig
  if parts = [] then "signature: unknown"
  else String.intercalate ("; ") parts

/-- tiebreakers._clip_text with the default 800-character budget. -/
def _clip_text (text : String) : String :=
  let t := pyStrip text
  if 800 < t.data.length then ⟨t.data.take 800⟩ else t

/-- tiebreakers.SigPickResult. -/
structure SigPickResult where
  best_sig : Sig
  best_sim : ℚ
  second_sim : ℚ
  sims : List (Sig × ℚ)

/-- tiebreakers.AnchorPickResult. -/
structure AnchorPickResult where
  best_idx : Nat
  best_sim : ℚ
  second_sim : ℚ
  sims : List (Nat × ℚ)

/-- tiebreakers.pick_group_by_query_embedding: cosine-rank the signature
texts against the query and accept the best only above the similarity and
gap thresholds. -/
def pick_group_by_query_embedding (sqrtq : ℚ → ℚ) (query : String)
    (group_sigs : List Sig) (embed : List String → List (List ℚ))
    (min_sig_sim min_sig_sim_gap : Option ℚ) : Option SigPickResult :=
  match group_sigs with
  | [] => none
  | _ =>
    let q_vector := _embed_one embed query
    let sims := group_sigs.map
      (fun sig =>
        (sig, cosine_sim sqrtq q_vector
          (_embed_one embed (_render_signature_text sig))))
    match sortBy (fun a b => b.2 < a.2) sims with
    | [] => none
    | best :: rest =>
      let best_sim := best.2
      let second_sim : ℚ := match rest with | [] => -1 | r :: _ => r.2
      let fail_abs : Bool :=
        match min_sig_sim with
        | some m => decide (best_sim < m)
        | none => false
      let fail_gap : Bool :=
        match min_sig_sim_gap with
        | some g => ! rest.isEmpty && decide (best_sim - second_sim < g)
        | none => false
      if fail_abs || fail_gap then none
      else some ⟨best.1, best_sim, second_sim, best :: rest⟩

/-- tiebreakers.pick_group_by_anchor_content: batch-embed the query plus the
clipped anchor texts and accept the most similar anchor above the
thresholds. -/
def pick_group_by_anchor_content (sqrtq : ℚ → ℚ) (query : String)
    (anchors_text : List String) (embed : List String → List (List ℚ))
    (min_anchor_sim min_anchor_sim_gap : Option ℚ) :
    Option AnchorPickResult :=
  match anchors_text with
  | [] => none
  | _ =>
    let inputs := query :: anchors_text.map _clip_text
    let vectors := embed inputs
    if vectors = [] ∨ ¬ vectors.length = inputs.length then none
    else
      let q_vector := vectors.headD []
      let sims := (vectors.drop 1).enum.map
        (fun iv => (iv.1, cosine_sim sqrtq q_vector iv.2))
      match sortBy (fun a b => b.2 < a.2) sims with
      | [] => none
      | best :: rest =>
        let best_sim := best.2
        let second_sim : ℚ := match rest with | [] => -1 | r :: _ => r.2
        let fail_abs : Bool :=
          match min_anchor_sim with
          | some m => decide (best_sim < m)
          | none => false
        let fail_gap : Bool :=
          match min_anchor_sim_gap with
          | some g => ! rest.isEmpty && decide (best_sim - second_sim < g)
          | none => false
        if fail_abs || fail_gap then none
        else some ⟨best.1, best_sim, second_sim, best :: rest⟩

/-- retriever._tiebreak_signature_embedding.  sig_to_idx.setdefault keeps the
first index of each signature, so the winner lookup is the first index of
the picked signature. -/
def _tiebreak_signature_embedding (sqrtq : ℚ → ℚ)
    (groups : List (List ScoredDocument)) (query : String)
    (cfg : AmbiguityConfig) : Option (List Document) :=
  if ¬ cfg.enable_sig_tiebreak then none
  else
    match cfg.embed_docs with
    | none => none
    | some embed =>
      let group_sigs := groups.map
        (fun g => _safe_tag_signature (headDocD g) cfg.strict_sig)
      match pick_group_by_query_embedding sqrtq query group_sigs embed
          cfg.min_sig_sim cfg.min_sig_sim_gap with
      | none => none
      | some picked =>
        match group_sigs.findIdx? (fun s => s = picked.best_sig) with
        | none => none
        | some wi =>
          let g := groups.getD wi []
          if g = [] then none else some (g.map (·.doc))

/-- retriever._tiebreak_anchor_embedding. -/
def _tiebreak_anchor_embedding (sqrtq : ℚ → ℚ)
    (groups : List (List ScoredDocument)) (query : String)
    (cfg : AmbiguityConfig) : Option (List Document) :=
  if ¬ cfg.enable_anchor_tiebreak then none
  else if groups.length < 2 then none
  else
    match cfg.embed_docs with
    | none => none
    | some embed =>
      let anchors_text := groups.map (fun g => (headDocD g).page_content)
      match pick_group_by_anchor_content sqrtq query anchors_text embed
          cfg.min_anchor_sim cfg.min_anchor_sim_gap with
      | none => none
      | some picked =>
        let g := groups.getD picked.best_idx []
        if g = [] then none else some (g.map (·.doc))

/-- retriever._tiebreak_groups_by_query_aware: signature tie-break first,
then the anchor-content tie-break, both over the non-empty buckets. -/
def _tiebreak_groups_by_query_aware (sqrtq : ℚ → ℚ)
    (groups : List (List ScoredDocument)) (query : String)
    (cfg : AmbiguityConfig) : Option (List Document) :=
  match cfg.embed_docs with
  | none => none
  | some _ =>
    let non_empty := groups.filter (fun g => ! g.isEmpty)
    if non_empty.length < 2 then none
    else
      match _tiebreak_signature_embedding sqrtq non_empty query cfg with
      | some docs => some docs
      | none => _tiebreak_anchor_embedding sqrtq non_empty query cfg

/-! ## Option building and ambiguity resolution (src/rag/retriever.py) -/

/-- The option built for one bucket inside
retriever._prepare_retrieval_options: the anchor plus up to safe_k distinct
companions. -/
def prepareOneOption (safe_k : Int) (ig : Nat × List ScoredDocument) :
    RetrievalOption :=
  { option_id := (ig.1 : Int) + 1
    docs := headDocD ig.2 ::
      _select_distinct_docs (headDocD ig.2)
        (_prioritize_documents_for_anchor (headDocD ig.2) ig.2) safe_k
    sources := collect_sources (headDocD ig.2 ::
      _select_distinct_docs (headDocD ig.2)
        (_prioritize_documents_for_anchor (headDocD ig.2) ig.2) safe_k)
    best_l2 := headScoreD ig.2 }

/-- The raw (pre-deduplication) option list of
retriever._prepare_retrieval_options. -/
def prepareRawOptions (groups : List (List ScoredDocument))
    (cfg : AmbiguityConfig) (effective_k : Int) : List RetrievalOption :=
  (pySlice groups cfg.max_options).enum.map
    (prepareOneOption (max 0 (effective_k - 1)))

/-- retriever._prepare_retrieval_options: one option per bucket (anchor plus
up to effective_k - 1 distinct companions), then signature-deduplicated and
renumbered. -/
def _prepare_retrieval_options (groups : List (List ScoredDocument))
    (cfg : AmbiguityConfig) (effective_k : Int) : List RetrievalOption :=
  _deduplicate_options (prepareRawOptions groups cfg effective_k)

/-- retriever._ensure_entities_coverage: run the entity augmenter when a
query-side extractor finds entities. -/
def _ensure_entities_coverage (scored : List ScoredDocument)
    (docs : List Document) (query : String) (final_k : Int)
    (cfg : AmbiguityConfig) : List Document :=
  match cfg.entity_extractor with
  | none => docs
  | some ex =>
    let query_id := (ex.extract query).toFinset
    if query_id = ∅ then docs
    else _augment_docs_to_cover_entities docs scored query_id final_k

/-- retriever._resolve_tag_ambiguity: returns (options, auto_resolved,
resolved_docs). -/
def _resolve_tag_ambiguity (sqrtq : ℚ → ℚ) (scored : List ScoredDocument)
    (query : String) (final_k : Int) (cfg : AmbiguityConfig) :
    List RetrievalOption × Bool × List Document :=
  match scored with
  | [] => ([], false, [])
  | _ =>
    let groups := _group_scored_by_tag_signature scored cfg.strict_sig
    let effective_k := max 1 final_k
    if 2 ≤ groups.length ∧ _is_overview_query query cfg then
      (_prepare_retrieval_options groups cfg effective_k, false, [])
    else if groups.length = 1 then
      ([], true,
       _ensure_entities_coverage scored
         ((pySlice (groups.headD []) effective_k).map (·.doc)) query
         effective_k cfg)
    else if 2 ≤ groups.length ∧ _is_generic_underspecified query cfg then
      (_prepare_retrieval_options groups cfg effective_k, false, [])
    else
      let resolved := _resolve_by_entity_coverage groups query cfg
      let groups2 := resolved.getD groups
      if resolved.isSome ∧ groups2.length = 1 then
        ([], true,
         _ensure_entities_coverage scored
           ((pySlice (groups2.headD []) effective_k).map (·.doc)) query
           effective_k cfg)
      else
        match _resolve_by_groups_score_gap groups2 cfg with
        | some docs =>
          ([], true,
           _ensure_entities_coverage scored (pySlice docs effective_k) query
             effective_k cfg)
        | none =>
          match _tiebreak_groups_by_query_aware sqrtq groups2 query cfg with
          | some winner_docs =>
            ([], true,
             _ensure_entities_coverage scored (pySlice winner_docs effective_k)
               query effective_k cfg)
          | none =>
            (_prepare_retrieval_options groups2 cfg effective_k, false, [])

/-- retriever.fetch_scored_docs_l2: k-NN results from the store, sorted
ascending by distance.  The vector store is an abstract function from
(query, k) to scored pairs. -/
def fetch_scored_docs_l2 (store : String → Int → List (Document × ℚ))
    (query : String) (fetch_k : Int) : List ScoredDocument :=
  sortBy (fun a b => a.score < b.score)
    ((store query fetch_k).map (fun p => ⟨p.1, p.2⟩))

/-- The first-call body of the step returned by
retriever.build_retrieve_and_gate_l2: trim the query, fetch, gate, and on
an ambiguous gate run the ambiguity resolver. -/
def retrieveFresh (gate_cfg : GateConfig) (amb_cfg : AmbiguityConfig)
    (sqrtq : ℚ → ℚ) (store : String → Int → List (Document × ℚ))
    (fetch_k : Int) (state : RetrievalState) : RetrievalState :=
  let query := pyStrip state.input
  let scored := fetch_scored_docs_l2 store query fetch_k
  let dg := gate_scored_docs_l2 scored gate_cfg
  match dg.2 with
  | .ambiguous =>
    let r := _resolve_tag_ambiguity sqrtq scored query gate_cfg.final_k
      amb_cfg
    if r.2.1 then _ok_state state r.2.2
    else
      match r.1 with
      | [o] => _ok_state state o.docs
      | [] => _refuse_state state ("Ambiguous gate produced no valid options")
      | _ => _ambiguous_state state r.1
  | .refuse => _refuse_state state ("No relevant documents found")
  | .ok =>
    if dg.1 = [] then
      _refuse_state state ("OK status but empty documents (unexpected)")
    else _ok_state state dg.1

/-- The step returned by retriever.build_retrieve_and_gate_l2.  A truthy
options list together with a selected option short-circuits to option
lookup; otherwise the step performs a fresh retrieval. -/
def retrieveAndGateStep (gate_cfg : GateConfig) (amb_cfg : AmbiguityConfig)
    (sqrtq : ℚ → ℚ) (store : String → Int → List (Document × ℚ))
    (fetch_k : Int) (state : RetrievalState) : RetrievalState :=
  match state.selected_option, state.options with
  | some selected, some (o :: os) =>
    (match (o :: os).find? (fun opt => opt.option_id = selected) with
     | none =>
       _refuse_state state ("Invalid selection: " ++ toString selected)
     | some chosen => _ok_state state chosen.docs)
  | _, _ => retrieveFresh gate_cfg amb_cfg sqrtq store fetch_k state

/-! ## Concrete fixtures used by counterexamples and witnesses -/

/-- The document of tests/test_gap_gate.py
test_gap_gate_pass_when_gap_small_but_same_family. -/
def gapTestDoc : Document :=
  ⟨"x", { domain := some ("aws_iot"), doc_type := some ("guide"),
          product := some ("iot_core") }⟩

/-- Documents used by the C6 counterexample. -/
def augDocA : Document :=
  ⟨"a", { source := some ("a.pdf"), entities := ["ea"] }⟩

/-- Documents used by the C6 counterexample. -/
def augDocB : Document :=
  ⟨"b", { source := some ("b.pdf"), entities := ["eb"] }⟩

/-- A document from file a.pdf in domain x. -/
def exDoc1 : Document :=
  ⟨"alpha", { source := some ("a.pdf"), domain := some ("x") }⟩

/-- A document from file b.pdf in domain y. -/
def exDoc2 : Document :=
  ⟨"beta", { source := some ("b.pdf"), domain := some ("y") }⟩

/-- A two-document vector store whose two results sit 0.01 apart. -/
def exStore : String → Int → List (Document × ℚ) :=
  fun _ _ => [(exDoc1, 1/10), (exDoc2, 11/100)]

/-- A gate configuration whose confidence-gap rule the example store
trips. -/
def exGateCfg : GateConfig :=
  { final_k := 4, max_l2 := 1, min_keep := 1, min_gap := some (5/100) }

/-- The options produced by the first (ambiguous) call on the example
store. -/
def exOpts : List RetrievalOption :=
  ((retrieveAndGateStep exGateCfg {} (fun _ => 0) exStore 50
    { input := "q" }).options).getD []

/-- The follow-up state selecting the second example option. -/
def exState2 : RetrievalState :=
  { input := "q", options := some exOpts,
    selected_option := some ((exOpts.getD 1 default).option_id) }

/-- A coverage configuration whose compare rule always fires and which
recognises the entities ea and eb on every query. -/
def exCovCfg : CoverageConfig :=
  { enabled := true
    compare_patterns := [fun _ => true]
    entity_patterns := [("ea", [fun _ => true]), ("eb", [fun _ => true])] }

/-- An ok state holding one document that mentions only entity ea. -/
def exCovState : RetrievalState :=
  { input := "compare ea and eb", status := some .ok,
    docs := [⟨"c", { entities := ["ea"] }⟩] }

/-! ## Claim C1: threshold selection and the soft threshold -/

/-- C1 (counterexample).  A single candidate at distance 0.9 lies strictly
between the configured hard threshold max_l2 = 0.8 and the configured soft
threshold soft_max_l2 = 1.05, yet gate_scored_docs_l2 refuses: the claimed
soft-threshold fallback does not exist in the gating code. -/
theorem C1_counterexample :
    configMaxL2 < 9/10 ∧ (9/10 : ℚ) ≤ configSoftMaxL2 ∧
      gate_scored_docs_l2 [⟨{}, 9/10⟩] configGateConfig = ([], .refuse) := by
  decide

/-- C1 (amended).  For every non-empty candidate list whose best distance
exceeds max_l2, the gate refuses even when that distance is within the
configured soft_max_l2; the soft threshold is declared in configuration but
never consulted, so refusal at the threshold step occurs exactly when the
best distance exceeds max_l2. -/
theorem C1_gate_refuses_above_hard_threshold (cfg : GateConfig)
    (sd : ScoredDocument) (rest : List ScoredDocument)
    (hhard : cfg.max_l2 < sd.score) (hsoft : sd.score ≤ configSoftMaxL2) :
    gate_scored_docs_l2 (sd :: rest) cfg = ([], .refuse) := by
  unfold gate_scored_docs_l2 _validate_absolute_gate
  simp [not_le.2 hhard]

/-- Witness for C1: the amended theorem applied at the concrete
counterexample input. -/
theorem C1_witness :
    configGateConfig.max_l2 < 9/10 ∧ (9/10 : ℚ) ≤ configSoftMaxL2 ∧
      gate_scored_docs_l2 [⟨{}, 9/10⟩] configGateConfig = ([], .refuse) :=
  ⟨by decide, by decide,
   C1_gate_refuses_above_hard_threshold configGateConfig ⟨{}, 9/10⟩ []
     (by decide) (by decide)⟩

/-! ## Claim C2: the identical-signature exemption in the gap gate -/

/-- C2.  At the repository's own test input (two candidates with identical
non-null core tag signature, scores 0.10 and 0.12, min_gap 0.05) the
confidence-gap gate returns False, and gate_scored_docs_l2 reports
ambiguous: the identical-signature exemption asserted by the test (and by
the claim) is absent from the code. -/
theorem C2_gap_gate_contradicts_own_test :
    _validate_confidence_gap_gate
        [⟨gapTestDoc, 1/10⟩, ⟨gapTestDoc, 12/100⟩] (some (5/100)) = false ∧
      tag_signature gapTestDoc.metadata false =
        [some ("aws_iot"), some ("guide"), some ("iot_core")] ∧
      gate_scored_docs_l2 [⟨gapTestDoc, 1/10⟩, ⟨gapTestDoc, 12/100⟩]
          { final_k := 4, max_l2 := configMaxL2, min_keep := 1,
            min_gap := some (5/100) } = ([], .ambiguous) := by
  decide

/-! ## Claim C3: out-of-domain gate refusal reasons -/

/-- C3 (counterexample).  For a whitespace-only query with the gate enabled
and skip_llm unset, ood_gate refuses with the reason "Empty or invalid
query", not "Out of domain" as the claim states. -/
theorem C3_counterexample :
    (ood_gate { input := " " } {}).status = some .refuse ∧
      (ood_gate { input := " " } {}).refusal_reason =
        some ("Empty or invalid query") ∧
      ¬ (ood_gate { input := " " } {}).refusal_reason =
          some ("Out of domain") := by
  decide

/-- C3 (amended).  With the OOD gate enabled and skip_llm unset: a blank
query refuses with reason "Empty or invalid query" (docs emptied and
skip_llm set, via the refusal-state constructor); a deny-pattern match, or
the absence of any allow-pattern match, refuses with reason
"Out of domain". -/
theorem C3_ood_gate_refusal_reasons (cfg : OODConfig) (s : RetrievalState)
    (hen : cfg.enabled = true) (hskip : s.skip_llm = false) :
    (pyStrip s.input = "" →
      ood_gate s cfg = oodRefuseState s ("Empty or invalid query")) ∧
    (¬ pyStrip s.input = "" →
      (∃ p ∈ cfg.deny_patterns, p s.input = true) →
      ood_gate s cfg = oodRefuseState s ("Out of domain")) ∧
    (¬ pyStrip s.input = "" →
      (∀ p ∈ cfg.deny_patterns, p s.input = false) →
      (∀ p ∈ cfg.allow_patterns, p s.input = false) →
      ood_gate s cfg = oodRefuseState s ("Out of domain")) := by
  refine ⟨?_, ?_, ?_⟩
  · intro hblank
    unfold ood_gate
    simp [hen, hskip, hblank]
  · intro hblank hdeny
    unfold ood_gate
    have hany : cfg.deny_patterns.any (fun p => p s.input) = true := by
      rw [List.any_eq_true]
      rcases hdeny with ⟨p, hp, hpt⟩
      exact ⟨p, hp, hpt⟩
    simp [hen, hskip, hblank, hany]
  · intro hblank hdeny hallow
    unfold ood_gate
    have hdany : cfg.deny_patterns.any (fun p => p s.input) = false := by
      rw [List.any_eq_false]
      intro p hp
      simp [hdeny p hp]
    have haany : cfg.allow_patterns.any (fun p => p s.input) = false := by
      rw [List.any_eq_false]
      intro p hp
      simp [hallow p hp]
    simp [hen, hskip, hblank, hdany, haany]

/-- Witness for C3: the amended theorem applied to a whitespace query with
the default (enabled) configuration. -/
theorem C3_witness :
    ({} : OODConfig).enabled = true ∧
      ({ input := " " } : RetrievalState).skip_llm = false ∧
      ood_gate { input := " " } {} =
        oodRefuseState { input := " " } ("Empty or invalid query") :=
  ⟨rfl, rfl,
   (C3_ood_gate_refusal_reasons {} { input := " " } rfl rfl).1 (by decide)⟩

/-! ## Claim C7: the coverage gate's compare rule -/

/-- C7.  For a state reaching the coverage gate with status ok (hence
skip_llm unset), non-empty docs, a non-blank query and the gate enabled:
if a compare marker matches, at least two entities are alias-matched and at
least one of them is missing from the docs' entity union, the gate refuses
with docs emptied, skip_llm set and reason "Missing document coverage
for: " followed by the missing entities; and if neither the compare rule
nor the generic rule fires, the state passes through unchanged. -/
theorem C7_coverage_gate_compare_rule (cfg : CoverageConfig)
    (s : RetrievalState) (hen : cfg.enabled = true)
    (hskip : s.skip_llm = false) (hst : s.status = some .ok)
    (hdocs : ¬ s.docs = []) (hblank : ¬ pyStrip s.input = "") :
    (cfg.compare_patterns.any (fun p => p s.input) = true →
      2 ≤ (coverageQueryEntities cfg s.input).length →
      ¬ coverageMissing cfg s.input s.docs = [] →
      coverage_gate s cfg =
        coverageRefuse s
          ("Missing document coverage for: " ++
            String.intercalate (", ") (coverageMissing cfg s.input s.docs))) ∧
    (¬ (cfg.compare_patterns.any (fun p => p s.input) = true ∧
          2 ≤ (coverageQueryEntities cfg s.input).length ∧
          ¬ coverageMissing cfg s.input s.docs = []) →
      ¬ (cfg.generic_patterns.any (fun p => p s.input) = true ∧
          ¬ coverageQueryEntities cfg s.input = [] ∧
          ¬ coverageMissing cfg s.input s.docs = []) →
      coverage_gate s cfg = s) := by
  constructor
  · intro hcmp hlen hmiss
    unfold coverage_gate
    have hm : (coverageMissing cfg s.input s.docs).isEmpty = false := by
      rw [List.isEmpty_eq_false_iff_exists_mem]
      rcases List.exists_mem_of_ne_nil _ hmiss with ⟨x, hx⟩
      exact ⟨x, hx⟩
    simp [hen, hskip, hblank, hdocs, hcmp, hlen, hm]
  · intro hc hg
    unfold coverage_gate
    have hcb : (cfg.compare_patterns.any (fun p => p s.input) &&
        decide (2 ≤ (coverageQueryEntities cfg s.input).length) &&
        ! (coverageMissing cfg s.input s.docs).isEmpty) = false := by
      rw [Bool.and_eq_false_iff, Bool.and_eq_false_iff]
      by_cases h1 : cfg.compare_patterns.any (fun p => p s.input) = true
      · by_cases h2 : 2 ≤ (coverageQueryEntities cfg s.input).length
        · right
          have h3 : coverageMissing cfg s.input s.docs = [] := by
            by_contra h3
            exact hc ⟨h1, h2, h3⟩
          simp [h3]
        · left; right; simpa using h2
      · left; left; simpa using h1
    have hgb : (cfg.generic_patterns.any (fun p => p s.input) &&
        ! (coverageQueryEntities cfg s.input).isEmpty &&
        ! (coverageMissing cfg s.input s.docs).isEmpty) = false := by
      rw [Bool.and_eq_false_iff, Bool.and_eq_false_iff]
      by_cases h1 : cfg.generic_patterns.any (fun p => p s.input) = true
      · by_cases h2 : coverageQueryEntities cfg s.input = []
        · left; right; simp [h2]
        · right
          have h3 : coverageMissing cfg s.input s.docs = [] := by
            by_contra h3
            exact hg ⟨h1, h2, h3⟩
          simp [h3]
      · left; left; simpa using h1
    simp [hen, hskip, hblank, hdocs, hcb, hgb]

/-! ## Claim C8: fetch-k sizing -/

/-- C8.  For final_k at least 1 the candidate count requested from the
vector store is max(configured fetch_k, final_k + 2 * max_options + 2);
for final_k below 1 chain construction fails with an error instead of
producing a fetch count. -/
theorem C8_safe_fetch_k (fetch_k final_k max_options : Int) :
    (1 ≤ final_k →
      buildRagChainFetchK fetch_k final_k max_options =
        .ok (max fetch_k (final_k + 2 * max_options + 2))) ∧
    (final_k < 1 →
      buildRagChainFetchK fetch_k final_k max_options =
        .error ("final_k must be at least 1, got " ++ toString final_k)) := by
  constructor
  · intro h
    unfold buildRagChainFetchK _calculate_safe_fetch_k
    rw [if_neg (by omega)]
    rw [max_comm]
  · intro h
    unfold buildRagChainFetchK _calculate_safe_fetch_k
    rw [if_pos h]

/-- Witness for C8 at the configured values fetch_k = 50, final_k = 4,
max_options = 3 (and at final_k = 0 for the failure branch). -/
theorem C8_witness :
    (1 : Int) ≤ 4 ∧ buildRagChainFetchK 50 4 3 = .ok 50 ∧
      (0 : Int) < 1 ∧
      buildRagChainFetchK 50 0 3 =
        .error ("final_k must be at least 1, got " ++ toString (0 : Int)) :=
  ⟨by decide,
   by simpa using (C8_safe_fetch_k 50 4 3).1 (by decide),
   by decide,
   (C8_safe_fetch_k 50 0 3).2 (by decide)⟩

/-! ## Claim C6: the entity augmenter and coverage monotonicity -/

theorem pySlice_length_le_int {α : Type} (xs : List α) (stop : Int)
    (h : 0 ≤ stop) : ((pySlice xs stop).length : Int) ≤ stop := by
  unfold pySlice
  rw [if_pos h]
  simp only [List.length_take]
  omega

theorem pySlice_eq_self {α : Type} (xs : List α) (stop : Int)
    (h : (xs.length : Int) ≤ stop) : pySlice xs stop = xs := by
  have h0 : 0 ≤ stop := le_trans (Int.natCast_nonneg _) h
  unfold pySlice
  rw [if_pos h0]
  exact List.take_of_length_le (by omega)

theorem pySlice_ne_nil {α : Type} (xs : List α) (stop : Int)
    (h1 : 1 ≤ stop) (h2 : ¬ xs = []) : ¬ pySlice xs stop = [] := by
  unfold pySlice
  rw [if_pos (by omega)]
  cases xs with
  | nil => exact absurd rfl h2
  | cons a l =>
    obtain ⟨m, hm⟩ : ∃ m, stop.toNat = m + 1 := ⟨stop.toNat - 1, by omega⟩
    rw [hm]
    simp

theorem foldl_union_acc (f : Document → Finset String) (l : List Document)
    (acc : Finset String) :
    l.foldl (fun a d => a ∪ f d) acc =
      acc ∪ l.foldl (fun a d => a ∪ f d) ∅ := by
  induction l generalizing acc with
  | nil => simp
  | cons d rest ih =>
    simp only [List.foldl]
    rw [ih (acc ∪ f d), ih (∅ ∪ f d)]
    simp [Finset.union_assoc]

theorem docsCovered_append (xs ys : List Document) :
    docsCovered (xs ++ ys) = docsCovered xs ∪ docsCovered ys := by
  unfold docsCovered
  rw [List.foldl_append]
  exact foldl_union_acc _doc_entities ys _

theorem augment_loop_prefix (Q : Finset String) (fk : Int) :
    ∀ (cands : List ScoredDocument) (picked : List Document)
      (seen : List (String × String)) (covered : Finset String),
    ∃ ext, _augment_loop Q fk cands picked seen covered = picked ++ ext := by
  intro cands
  induction cands with
  | nil =>
    intro picked seen covered
    exact ⟨[], by simp [_augment_loop]⟩
  | cons sd rest ih =>
    intro picked seen covered
    unfold _augment_loop
    by_cases h1 : fk ≤ (picked.length : Int)
    · exact ⟨[], by rw [if_pos h1]; simp⟩
    · rw [if_neg h1]
      by_cases h2 : _doc_signature sd.doc ∈ seen
      · rw [if_pos h2]; exact ih picked seen covered
      · rw [if_neg h2]
        by_cases h3 : (Q \ covered) ∩ _doc_entities sd.doc = ∅
        · rw [if_pos h3]; exact ih picked seen covered
        · rw [if_neg h3]
          by_cases h4 : Q \ (covered ∪ _doc_entities sd.doc) = ∅
          · exact ⟨[sd.doc], by rw [if_pos h4]⟩
          · rw [if_neg h4]
            obtain ⟨ext, hext⟩ := ih (picked ++ [sd.doc])
              (_doc_signature sd.doc :: seen) (covered ∪ _doc_entities sd.doc)
            exact ⟨[sd.doc] ++ ext, by rw [hext, List.append_assoc]⟩

theorem augment_loop_length (Q : Finset String) (fk : Int) :
    ∀ (cands : List ScoredDocument) (picked : List Document)
      (seen : List (String × String)) (covered : Finset String),
    (picked.length : Int) ≤ fk →
    (((_augment_loop Q fk cands picked seen covered).length : Int)) ≤ fk := by
  intro cands
  induction cands with
  | nil =>
    intro picked seen covered h
    simpa [_augment_loop] using h
  | cons sd rest ih =>
    intro picked seen covered h
    unfold _augment_loop
    by_cases h1 : fk ≤ (picked.length : Int)
    · rw [if_pos h1]; exact h
    · rw [if_neg h1]
      by_cases h2 : _doc_signature sd.doc ∈ seen
      · rw [if_pos h2]; exact ih picked seen covered h
      · rw [if_neg h2]
        by_cases h3 : (Q \ covered) ∩ _doc_entities sd.doc = ∅
        · rw [if_pos h3]; exact ih picked seen covered h
        · rw [if_neg h3]
          by_cases h4 : Q \ (covered ∪ _doc_entities sd.doc) = ∅
          · rw [if_pos h4]; simp; omega
          · rw [if_neg h4]
            exact ih (picked ++ [sd.doc]) _ _ (by simp; omega)

theorem coverage_card_mono (Q : Finset String) {A B : Finset String}
    (h : A ⊆ B) : (Q ∩ A).card ≤ (Q ∩ B).card :=
  Finset.card_le_card (Finset.inter_subset_inter (Finset.Subset.refl Q) h)

/-- C6 (counterexample).  With query entities {ea, eb, ec}, final_k = 2,
chosen documents covering {ea, eb} and no candidates, the augmenter trims
to a single document and returns coverage 1 < 2: it reduces the number of
covered query entities. -/
theorem C6_counterexample :
    ¬ ((["ea", "eb", "ec"] : List String).toFinset : Finset String) = ∅ ∧
      (1 : Int) ≤ 2 ∧
      _augment_docs_to_cover_entities [augDocA, augDocB] []
          (["ea", "eb", "ec"] : List String).toFinset 2 = [augDocA] ∧
      ((["ea", "eb", "ec"] : List String).toFinset ∩
          docsCovered [augDocA]).card <
        ((["ea", "eb", "ec"] : List String).toFinset ∩
          docsCovered [augDocA, augDocB]).card := by
  decide

/-- C6 (amended).  For non-empty query entities and final_k at least 1:
when the chosen list is strictly shorter than final_k (so the
room-making trim cannot fire), the augmenter never reduces the number of
covered query entities; and whenever the chosen documents already cover all
query entities, the result is exactly the chosen list truncated to final_k.
The original claim fails when the chosen list already has at least final_k
documents, because the augmenter then discards documents (see the
counterexample). -/
theorem C6_augment_amended (chosen : List Document)
    (cands : List ScoredDocument) (Q : Finset String) (fk : Int)
    (hQ : ¬ Q = ∅) (hfk : 1 ≤ fk) :
    ((chosen.length : Int) < fk →
      (Q ∩ docsCovered chosen).card ≤
        (Q ∩ docsCovered
          (_augment_docs_to_cover_entities chosen cands Q fk)).card) ∧
    (Q \ docsCovered chosen = ∅ →
      _augment_docs_to_cover_entities chosen cands Q fk =
        pySlice chosen fk) := by
  have h0 : ¬ (Q = ∅ ∨ fk ≤ 0) := by
    rintro (h | h)
    · exact hQ h
    · omega
  constructor
  · intro hlen
    unfold _augment_docs_to_cover_entities
    rw [if_neg h0]
    dsimp only
    by_cases hmiss : Q \ docsCovered chosen = ∅
    · rw [if_pos hmiss, pySlice_eq_self chosen fk (by omega)]
    · rw [if_neg hmiss, if_neg (by omega)]
      obtain ⟨ext, hext⟩ := augment_loop_prefix Q fk cands chosen
        (chosen.map _doc_signature) (docsCovered chosen)
      have hlenloop := augment_loop_length Q fk cands chosen
        (chosen.map _doc_signature) (docsCovered chosen) (by omega)
      rw [pySlice_eq_self _ fk hlenloop, hext, docsCovered_append]
      exact coverage_card_mono Q (Finset.subset_union_left)
  · intro hmiss
    unfold _augment_docs_to_cover_entities
    rw [if_neg h0]
    dsimp only
    rw [if_pos hmiss]

/-- Witness for C6: the amended theorem applied to a single chosen document
fully covering the lone query entity, with final_k = 2. -/
theorem C6_witness :
    ¬ ((["ea"] : List String).toFinset : Finset String) = ∅ ∧
      (1 : Int) ≤ 2 ∧ ((1 : Int) < 2) ∧
      ((["ea"] : List String).toFinset ∩ docsCovered [augDocA]).card ≤
        ((["ea"] : List String).toFinset ∩
          docsCovered
            (_augment_docs_to_cover_entities [augDocA] []
              (["ea"] : List String).toFinset 2)).card :=
  ⟨by decide, by decide, by decide,
   (C6_augment_amended [augDocA] [] (["ea"] : List String).toFinset 2
       (by decide) (by decide)).1 (by decide)⟩

/-! ## Claim C10: selection with a falsy options list -/

/-- C10.  When selected_option is set: with options absent or empty the step
ignores the selection and performs the fresh first-call retrieval on the
trimmed input; with a non-empty options list it refuses with
"Invalid selection: n" exactly when no option carries the selected id, and
otherwise returns ok with the matching option's docs. -/
theorem C10_selection_dispatch (gcfg : GateConfig) (acfg : AmbiguityConfig)
    (sqrtq : ℚ → ℚ) (store : String → Int → List (Document × ℚ)) (fk : Int)
    (s : RetrievalState) (sel : Int) (hsel : s.selected_option = some sel) :
    ((s.options = none ∨ s.options = some []) →
      retrieveAndGateStep gcfg acfg sqrtq store fk s =
        retrieveFresh gcfg acfg sqrtq store fk s) ∧
    (∀ o os, s.options = some (o :: os) →
      ((o :: os).find? (fun opt => opt.option_id = sel) = none →
        retrieveAndGateStep gcfg acfg sqrtq store fk s =
          _refuse_state s ("Invalid selection: " ++ toString sel)) ∧
      (∀ chosen,
        (o :: os).find? (fun opt => opt.option_id = sel) = some chosen →
        retrieveAndGateStep gcfg acfg sqrtq store fk s =
          _ok_state s chosen.docs)) := by
  refine ⟨?_, ?_⟩
  · rintro (h | h) <;> simp [retrieveAndGateStep, hsel, h]
  · intro o os h
    refine ⟨?_, ?_⟩
    · intro hf
      simp [retrieveAndGateStep, hsel, h, hf]
    · intro chosen hf
      simp [retrieveAndGateStep, hsel, h, hf]

/-- Witness for C10: a state selecting option 7 with no options present
falls through to the fresh retrieval. -/
theorem C10_witness :
    ({ input := "q", selected_option := some 7 } : RetrievalState).options =
        none ∧
      retrieveAndGateStep configGateConfig {} (fun _ => 0) (fun _ _ => []) 50
          { input := "q", selected_option := some 7 } =
        retrieveFresh configGateConfig {} (fun _ => 0) (fun _ _ => []) 50
          { input := "q", selected_option := some 7 } :=
  ⟨rfl,
   (C10_selection_dispatch configGateConfig {} (fun _ => 0) (fun _ _ => [])
       50 { input := "q", selected_option := some 7 } 7 rfl).1 (Or.inl rfl)⟩

/-! ## Shared lemmas about option renumbering and deduplication -/

theorem enumFrom_fst_ge {α : Type} :
    ∀ (n : Nat) (l : List α) (p : Nat × α), p ∈ List.enumFrom n l → n ≤ p.1 := by
  intro n l
  induction l generalizing n with
  | nil => intro p hp; simp [List.enumFrom] at hp
  | cons a rest ih =>
    intro p hp
    simp only [List.enumFrom, List.mem_cons] at hp
    rcases hp with hp | hp
    · simp [hp]
    · exact le_trans (Nat.le_succ n) (ih (n + 1) p hp)

theorem enumFrom_snd_getD {α : Type} (d : α) :
    ∀ (n : Nat) (l : List α) (p : Nat × α), p ∈ List.enumFrom n l →
      l.getD (p.1 - n) d = p.2 ∧ p.2 ∈ l := by
  intro n l
  induction l generalizing n with
  | nil => intro p hp; simp [List.enumFrom] at hp
  | cons a rest ih =>
    intro p hp
    simp only [List.enumFrom, List.mem_cons] at hp
    rcases hp with hp | hp
    · subst hp; simp
    · have h1 := enumFrom_fst_ge (n + 1) rest p hp
      obtain ⟨h2, h3⟩ := ih (n + 1) p hp
      refine ⟨?_, List.mem_cons_of_mem a h3⟩
      have heq : p.1 - n = (p.1 - (n + 1)) + 1 := by omega
      rw [heq]
      simpa using h2

theorem renumber_get_option_id :
    ∀ (l : List RetrievalOption) (n i : Nat)
      (h : i < ((List.enumFrom n l).map renumberOption).length),
      (((List.enumFrom n l).map renumberOption).get ⟨i, h⟩).option_id =
        ((n + i : Nat) : Int) + 1 := by
  intro l
  induction l with
  | nil => intro n i h; simp [List.enumFrom] at h
  | cons a rest ih =>
    intro n i h
    cases i with
    | zero => simp [List.enumFrom, renumberOption]
    | succ j =>
      have h' : j < ((List.enumFrom (n + 1) rest).map renumberOption).length := by
        have := h
        simp only [List.enumFrom, List.map_cons, List.length_cons] at this
        simpa using Nat.lt_of_succ_lt_succ this
      have hih := ih (n + 1) j h'
      simp only [List.enumFrom, List.map_cons, List.get_cons_succ]
      rw [hih]
      congr 1
      omega

/-- Option ids after _deduplicate_options are contiguous from 1. -/
theorem dedup_option_ids (l : List RetrievalOption) (i : Nat)
    (h : i < (_deduplicate_options l).length) :
    ((_deduplicate_options l).get ⟨i, h⟩).option_id = (i : Int) + 1 := by
  have := renumber_get_option_id (dedupOptionsLoop l []) 0 i (by
    simpa [_deduplicate_options, List.enum] using h)
  simpa [_deduplicate_options, List.enum] using this

theorem dedupLoop_mem :
    ∀ (l : List RetrievalOption) (seen : List (List (String × String)))
      (o : RetrievalOption), o ∈ dedupOptionsLoop l seen → o ∈ l := by
  intro l
  induction l with
  | nil => intro seen o h; simp [dedupOptionsLoop] at h
  | cons a rest ih =>
    intro seen o h
    unfold dedupOptionsLoop at h
    by_cases hs : _option_signature a ∈ seen
    · rw [if_pos hs] at h
      exact List.mem_cons_of_mem a (ih _ o h)
    · rw [if_neg hs] at h
      rcases List.mem_cons.1 h with h | h
      · simp [h]
      · exact List.mem_cons_of_mem a (ih _ o h)

/-- Every deduplicated option keeps the docs of one of the input options. -/
theorem dedup_docs_mem (l : List RetrievalOption) (o : RetrievalOption)
    (h : o ∈ _deduplicate_options l) :
    ∃ o', o' ∈ l ∧ o.docs = o'.docs := by
  unfold _deduplicate_options at h
  rcases List.mem_map.1 h with ⟨p, hp, hpo⟩
  have h2 := (enumFrom_snd_getD default 0 (dedupOptionsLoop l []) p
    (by simpa [List.enum] using hp)).2
  exact ⟨p.2, dedupLoop_mem l [] p.2 h2, by rw [← hpo]; rfl⟩

/-- Renumbering does not change an option's source signature. -/
theorem option_signature_renumber (io : Nat × RetrievalOption) :
    _option_signature (renumberOption io) = _option_signature io.2 := rfl

theorem dedupLoop_pairwise :
    ∀ (l : List RetrievalOption) (seen : List (List (String × String))),
      (dedupOptionsLoop l seen).Pairwise
        (fun a b => ¬ _option_signature a = _option_signature b) ∧
      (∀ o ∈ dedupOptionsLoop l seen, ¬ _option_signature o ∈ seen) := by
  intro l
  induction l with
  | nil => intro seen; simp [dedupOptionsLoop]
  | cons a rest ih =>
    intro seen
    unfold dedupOptionsLoop
    by_cases hs : _option_signature a ∈ seen
    · rw [if_pos hs]; exact ih seen
    · rw [if_neg hs]
      obtain ⟨ihp, ihm⟩ := ih (_option_signature a :: seen)
      refine ⟨List.Pairwise.cons ?_ ihp, ?_⟩
      · intro b hb hab
        exact (ihm b hb) (by rw [← hab]; exact List.mem_cons_self _ _)
      · intro o ho
        rcases List.mem_cons.1 ho with ho | ho
        · simpa [ho] using hs
        · intro hmem
          exact (ihm o ho) (List.mem_cons_of_mem _ hmem)

theorem pairwise_sig_renumber :
    ∀ (l : List RetrievalOption) (n : Nat),
      l.Pairwise (fun a b => ¬ _option_signature a = _option_signature b) →
      ((List.enumFrom n l).map renumberOption).Pairwise
        (fun a b => ¬ _option_signature a = _option_signature b) := by
  intro l
  induction l with
  | nil => intro n h; simp [List.enumFrom]
  | cons a rest ih =>
    intro n h
    rcases List.pairwise_cons.1 h with ⟨ha, hrest⟩
    simp only [List.enumFrom, List.map_cons]
    refine List.Pairwise.cons ?_ (ih (n + 1) hrest)
    intro b hb
    rcases List.mem_map.1 hb with ⟨p, hp, hpb⟩
    have h2 := (enumFrom_snd_getD default (n + 1) rest p hp).2
    rw [← hpb]
    simp only [option_signature_renumber]
    exact ha p.2 h2

/-- The deduplicated option list has pairwise-distinct source signatures. -/
theorem dedup_options_pairwise (l : List RetrievalOption) :
    (_deduplicate_options l).Pairwise
      (fun a b => ¬ _option_signature a = _option_signature b) := by
  unfold _deduplicate_options
  exact pairwise_sig_renumber (dedupOptionsLoop l []) 0
    (dedupLoop_pairwise l []).1

/-- find? by option id on a list with contiguous ids from base returns the
element at the selected position. -/
theorem find?_by_contiguous_id :
    ∀ (os : List RetrievalOption) (base : Int),
      (∀ i (h : i < os.length), (os.get ⟨i, h⟩).option_id = (i : Int) + base) →
      ∀ (k : Nat) (hk : k < os.length),
      os.find? (fun o => o.option_id = (os.get ⟨k, hk⟩).option_id) =
        some (os.get ⟨k, hk⟩) := by
  intro os
  induction os with
  | nil => intro base hids k hk; simp at hk
  | cons o rest ih =>
    intro base hids k hk
    cases k with
    | zero => simp [List.find?]
    | succ j =>
      have hj : j < rest.length := Nat.lt_of_succ_lt_succ hk
      have htarget : (rest.get ⟨j, hj⟩).option_id = ((j : Int) + 1) + base := by
        have h0 := hids (j + 1) hk
        simp only [List.get_cons_succ] at h0
        rw [h0]
        push_cast
        ring
      have hhead : o.option_id = base := by
        have h0 := hids 0 (Nat.succ_pos _)
        simpa using h0
      have hne : ¬ o.option_id = (rest.get ⟨j, hj⟩).option_id := by
        rw [hhead, htarget]
        omega
      have hrest : ∀ i (h : i < rest.length),
          (rest.get ⟨i, h⟩).option_id = (i : Int) + (base + 1) := by
        intro i h
        have h0 := hids (i + 1) (Nat.succ_lt_succ h)
        simp only [List.get_cons_succ] at h0
        rw [h0]
        push_cast
        ring
      have hih := ih (base + 1) hrest j hj
      have hfalse :
          (decide (o.option_id = (rest.get ⟨j, hj⟩).option_id)) = false := by
        simpa using hne
      simp only [List.get_cons_succ]
      simp only [List.find?, hfalse]
      exact hih

/-! ## Shape of the ambiguity resolver's option output -/

/-- Every option list produced by _resolve_tag_ambiguity is either empty or
the deduplicated option list built from some bucket list. -/
theorem resolve_options_shape (sqrtq : ℚ → ℚ) (scored : List ScoredDocument)
    (query : String) (fk : Int) (cfg : AmbiguityConfig) :
    (_resolve_tag_ambiguity sqrtq scored query fk cfg).1 = [] ∨
      ∃ l0, (_resolve_tag_ambiguity sqrtq scored query fk cfg).1 =
        _deduplicate_options l0 := by
  unfold _resolve_tag_ambiguity
  rcases scored with _ | ⟨sd, rest⟩
  · left; rfl
  · dsimp only
    split_ifs with h1 h2 h3 h4
    · right; exact ⟨_, rfl⟩
    · left; rfl
    · right; exact ⟨_, rfl⟩
    · left; rfl
    · split
      · left; rfl
      · split
        · left; rfl
        · right; exact ⟨_, rfl⟩

/-- Option ids in the resolver's option output are contiguous from 1. -/
theorem resolve_options_ids (sqrtq : ℚ → ℚ) (scored : List ScoredDocument)
    (query : String) (fk : Int) (cfg : AmbiguityConfig) (i : Nat)
    (h : i < ((_resolve_tag_ambiguity sqrtq scored query fk cfg).1).length) :
    (((_resolve_tag_ambiguity sqrtq scored query fk cfg).1).get
      ⟨i, h⟩).option_id = (i : Int) + 1 := by
  rcases resolve_options_shape sqrtq scored query fk cfg with hsh | ⟨l0, hsh⟩
  · exact absurd h (by simp [hsh])
  · revert h
    rw [hsh]
    intro h
    exact dedup_option_ids l0 i h

/-- The resolver's option output has pairwise-distinct source signatures. -/
theorem resolve_options_pairwise (sqrtq : ℚ → ℚ)
    (scored : List ScoredDocument) (query : String) (fk : Int)
    (cfg : AmbiguityConfig) :
    ((_resolve_tag_ambiguity sqrtq scored query fk cfg).1).Pairwise
      (fun a b => ¬ _option_signature a = _option_signature b) := by
  rcases resolve_options_shape sqrtq scored query fk cfg with hsh | ⟨l0, hsh⟩
  · rw [hsh]; exact List.Pairwise.nil
  · rw [hsh]; exact dedup_options_pairwise l0

/-! ## Shape of the step on an ambiguous outcome -/

/-- When the first-call body returns an ambiguous status, the state is the
ambiguous state carrying the resolver's options, and there are at least two
of them. -/
theorem fresh_ambiguous_shape (gcfg : GateConfig) (acfg : AmbiguityConfig)
    (sqrtq : ℚ → ℚ) (store : String → Int → List (Document × ℚ)) (fk : Int)
    (s : RetrievalState)
    (hamb : (retrieveFresh gcfg acfg sqrtq store fk s).status =
      some .ambiguous) :
    retrieveFresh gcfg acfg sqrtq store fk s =
      _ambiguous_state s
        ((_resolve_tag_ambiguity sqrtq
          (fetch_scored_docs_l2 store (pyStrip s.input) fk) (pyStrip s.input)
          gcfg.final_k acfg).1) ∧
      2 ≤ ((_resolve_tag_ambiguity sqrtq
        (fetch_scored_docs_l2 store (pyStrip s.input) fk) (pyStrip s.input)
        gcfg.final_k acfg).1).length := by
  unfold retrieveFresh at hamb ⊢
  dsimp only at hamb ⊢
  cases hst : (gate_scored_docs_l2
      (fetch_scored_docs_l2 store (pyStrip s.input) fk) gcfg).2 with
  | ok =>
    rw [hst] at hamb
    by_cases hd : (gate_scored_docs_l2
        (fetch_scored_docs_l2 store (pyStrip s.input) fk) gcfg).1 = []
    · simp [hd, _refuse_state] at hamb
    · simp [hd, _ok_state] at hamb
  | refuse =>
    rw [hst] at hamb
    simp [_refuse_state] at hamb
  | ambiguous =>
    rw [hst] at hamb
    by_cases hauto : (_resolve_tag_ambiguity sqrtq
        (fetch_scored_docs_l2 store (pyStrip s.input) fk) (pyStrip s.input)
        gcfg.final_k acfg).2.1 = true
    · simp [hauto, _ok_state] at hamb
    · rw [Bool.not_eq_true] at hauto
      rcases hopt : (_resolve_tag_ambiguity sqrtq
          (fetch_scored_docs_l2 store (pyStrip s.input) fk) (pyStrip s.input)
          gcfg.final_k acfg).1 with _ | ⟨o1, _ | ⟨o2, orest⟩⟩
      · simp [hauto, hopt, _refuse_state] at hamb
      · simp [hauto, hopt, _ok_state] at hamb
      · simp only [hauto, hopt]
        refine ⟨by simp, by simp⟩

/-- When the full step returns an ambiguous status, it came from the fresh
branch and carries the resolver's options (at least two). -/
theorem step_ambiguous_shape (gcfg : GateConfig) (acfg : AmbiguityConfig)
    (sqrtq : ℚ → ℚ) (store : String → Int → List (Document × ℚ)) (fk : Int)
    (s : RetrievalState)
    (hamb : (retrieveAndGateStep gcfg acfg sqrtq store fk s).status =
      some .ambiguous) :
    retrieveAndGateStep gcfg acfg sqrtq store fk s =
      _ambiguous_state s
        ((_resolve_tag_ambiguity sqrtq
          (fetch_scored_docs_l2 store (pyStrip s.input) fk) (pyStrip s.input)
          gcfg.final_k acfg).1) ∧
      2 ≤ ((_resolve_tag_ambiguity sqrtq
        (fetch_scored_docs_l2 store (pyStrip s.input) fk) (pyStrip s.input)
        gcfg.final_k acfg).1).length := by
  rcases hso : s.selected_option with _ | sel <;>
    rcases ho : s.options with _ | ⟨_ | ⟨o, os⟩⟩ <;>
    rw [retrieveAndGateStep, hso, ho] at hamb ⊢ <;>
    try exact fresh_ambiguous_shape gcfg acfg sqrtq store fk s hamb
  dsimp only at hamb
  rcases hf : (o :: os).find? (fun opt => opt.option_id = sel) with _ | chosen
  · rw [hf] at hamb
    simp [_refuse_state] at hamb
  · rw [hf] at hamb
    simp [_ok_state] at hamb

/-- The second-call branch of the step: with a truthy options list and a
selection that find? resolves to an option, the step returns that option's
docs. -/
theorem step_second_call_found (gcfg : GateConfig) (acfg : AmbiguityConfig)
    (sqrtq : ℚ → ℚ) (store : String → Int → List (Document × ℚ)) (fk : Int)
    (s2 : RetrievalState) (sel : Int) (os : List RetrievalOption)
    (hne : ¬ os = []) (h2s : s2.selected_option = some sel)
    (h2o : s2.options = some os) (chosen : RetrievalOption)
    (hf : os.find? (fun opt => opt.option_id = sel) = some chosen) :
    retrieveAndGateStep gcfg acfg sqrtq store fk s2 =
      _ok_state s2 chosen.docs := by
  rcases os with _ | ⟨o, orest⟩
  · exact absurd rfl hne
  · rw [retrieveAndGateStep, h2s, h2o]
    dsimp only
    rw [hf]

/-! ## Claim C4: the selection round trip -/

/-- C4.  If a first call returns status ambiguous with options os, then a
second call that carries options = os and selected_option equal to the
option id at any position k performs no vector search (the conclusion holds
for every store, fetch size and square-root model of the second call) and
returns the ok state whose docs are that option's docs, with empty options
and null refusal reason (both set by the ok-state constructor). -/
theorem C4_round_trip (gcfg : GateConfig) (acfg : AmbiguityConfig)
    (sqrtq : ℚ → ℚ) (store : String → Int → List (Document × ℚ)) (fk : Int)
    (s : RetrievalState) (os : List RetrievalOption) (k : Nat)
    (hamb : (retrieveAndGateStep gcfg acfg sqrtq store fk s).status =
      some .ambiguous)
    (hopts : (retrieveAndGateStep gcfg acfg sqrtq store fk s).options =
      some os)
    (hk : k < os.length) (s2 : RetrievalState) (sqrtq2 : ℚ → ℚ)
    (store2 : String → Int → List (Document × ℚ)) (fk2 : Int)
    (h2o : s2.options = some os)
    (h2s : s2.selected_option = some ((os.get ⟨k, hk⟩).option_id)) :
    retrieveAndGateStep gcfg acfg sqrtq2 store2 fk2 s2 =
      _ok_state s2 ((os.get ⟨k, hk⟩).docs) := by
  obtain ⟨hsteq, hlen⟩ :=
    step_ambiguous_shape gcfg acfg sqrtq store fk s hamb
  have hos : os = (_resolve_tag_ambiguity sqrtq
      (fetch_scored_docs_l2 store (pyStrip s.input) fk) (pyStrip s.input)
      gcfg.final_k acfg).1 := by
    rw [hsteq] at hopts
    simpa [_ambiguous_state] using hopts.symm
  have hids : ∀ i (h : i < os.length),
      (os.get ⟨i, h⟩).option_id = (i : Int) + 1 := by
    intro i h
    have h' : i < ((_resolve_tag_ambiguity sqrtq
        (fetch_scored_docs_l2 store (pyStrip s.input) fk) (pyStrip s.input)
        gcfg.final_k acfg).1).length := by rw [← hos]; exact h
    have := resolve_options_ids sqrtq
      (fetch_scored_docs_l2 store (pyStrip s.input) fk) (pyStrip s.input)
      gcfg.final_k acfg i h'
    revert h h'
    rw [← hos]
    intro h h' hx
    exact hx
  have hfind : os.find?
      (fun opt => opt.option_id = (os.get ⟨k, hk⟩).option_id) =
        some (os.get ⟨k, hk⟩) :=
    find?_by_contiguous_id os 1 hids k hk
  exact step_second_call_found gcfg acfg sqrtq2 store2 fk2 s2 _ os
    (List.ne_nil_of_length_pos (Nat.lt_of_le_of_lt (Nat.zero_le k) hk))
    h2s h2o _ hfind

/-! ## Claim C5: ambiguous outcomes carry at least two distinct options -/

/-- C5.  For a first call (no selected option): if the step reports status
ambiguous its options list has at least two entries with pairwise-distinct
source signatures; and when the gate was ambiguous but deduplication left
exactly one option (respectively none), the step instead returns ok with
that option's docs (respectively a refusal). -/
theorem C5_ambiguous_option_invariants (gcfg : GateConfig)
    (acfg : AmbiguityConfig) (sqrtq : ℚ → ℚ)
    (store : String → Int → List (Document × ℚ)) (fk : Int)
    (s : RetrievalState) (hsel : s.selected_option = none) :
    ((retrieveAndGateStep gcfg acfg sqrtq store fk s).status =
        some .ambiguous →
      ∃ os, (retrieveAndGateStep gcfg acfg sqrtq store fk s).options =
          some os ∧ 2 ≤ os.length ∧
        os.Pairwise
          (fun a b => ¬ _option_signature a = _option_signature b)) ∧
    ((gate_scored_docs_l2 (fetch_scored_docs_l2 store (pyStrip s.input) fk)
        gcfg).2 = .ambiguous →
      (_resolve_tag_ambiguity sqrtq
        (fetch_scored_docs_l2 store (pyStrip s.input) fk) (pyStrip s.input)
        gcfg.final_k acfg).2.1 = false →
      (∀ o, (_resolve_tag_ambiguity sqrtq
          (fetch_scored_docs_l2 store (pyStrip s.input) fk) (pyStrip s.input)
          gcfg.final_k acfg).1 = [o] →
        retrieveAndGateStep gcfg acfg sqrtq store fk s =
          _ok_state s o.docs) ∧
      ((_resolve_tag_ambiguity sqrtq
          (fetch_scored_docs_l2 store (pyStrip s.input) fk) (pyStrip s.input)
          gcfg.final_k acfg).1 = [] →
        retrieveAndGateStep gcfg acfg sqrtq store fk s =
          _refuse_state s ("Ambiguous gate produced no valid options"))) := by
  constructor
  · intro hamb
    obtain ⟨hsteq, hlen⟩ :=
      step_ambiguous_shape gcfg acfg sqrtq store fk s hamb
    refine ⟨_, ?_, hlen, resolve_options_pairwise sqrtq _ _ _ _⟩
    rw [hsteq]
    rfl
  · intro hgate hauto
    have hstep : retrieveAndGateStep gcfg acfg sqrtq store fk s =
        retrieveFresh gcfg acfg sqrtq store fk s := by
      rcases ho : s.options with _ | ⟨_ | ⟨o, orest⟩⟩ <;>
        rw [retrieveAndGateStep, hsel, ho]
    constructor
    · intro o hopt
      rw [hstep]
      unfold retrieveFresh
      dsimp only
      rw [hgate]
      dsimp only
      rw [hauto, hopt]
      simp
    · intro hopt
      rw [hstep]
      unfold retrieveFresh
      dsimp only
      rw [hgate]
      dsimp only
      rw [hauto, hopt]
      simp

/-! ## Document-count bounds along the pipeline (toward C9) -/

/-- The docs of an ok gate verdict are at most final_k. -/
theorem gate_ok_docs_bound (scored : List ScoredDocument) (cfg : GateConfig)
    (hfk : 0 ≤ cfg.final_k) (docs : List Document)
    (h : gate_scored_docs_l2 scored cfg = (docs, .ok)) :
    (docs.length : Int) ≤ cfg.final_k := by
  unfold gate_scored_docs_l2 at h
  split_ifs at h with h1
  · rcases hd : _validate_density_gate scored cfg.max_l2 cfg.min_keep with
      _ | relevant
    · rw [hd] at h
      simp at h
    · rw [hd] at h
      dsimp only at h
      split_ifs at h with h2
      · rw [Prod.mk.injEq] at h
        rw [← h.1]
        simp only [List.length_map]
        exact pySlice_length_le_int relevant cfg.final_k hfk
      · simp at h
  · simp at h

theorem select_phase_length (need : Int) (phase : Nat) :
    ∀ (cands : List Document) (st : SelState),
    st.picked.length ≤ need.toNat →
    (_select_phase need phase cands st).picked.length ≤ need.toNat := by
  intro cands
  induction cands with
  | nil => intro st h; simpa [_select_phase] using h
  | cons c rest ih =>
    intro st h
    have hcons : _select_phase need phase (c :: rest) st =
        _select_phase need phase rest (selStep need phase st c) := rfl
    rw [hcons]
    refine ih (selStep need phase st c) ?_
    have hmax := Int.self_le_toNat need
    unfold selStep
    split_ifs with h1 h2
    · exact h
    · exact h
    · dsimp only
      split_ifs with h3
      · simp only [List.length_append, List.length_cons, List.length_nil]
        omega
      · exact h

theorem select_distinct_length (anchor : Document) (cands : List Document)
    (need : Int) :
    (_select_distinct_docs anchor cands need).length ≤ need.toNat := by
  unfold _select_distinct_docs
  split_ifs with h
  · simp
  · dsimp only [List.foldl]
    apply select_phase_length
    apply select_phase_length
    apply select_phase_length
    simp

theorem prepare_raw_docs_bound (groups : List (List ScoredDocument))
    (cfg : AmbiguityConfig) (ek : Int) :
    ∀ o ∈ prepareRawOptions groups cfg ek,
      1 ≤ o.docs.length ∧ (o.docs.length : Int) ≤ max 1 ek := by
  intro o ho
  unfold prepareRawOptions at ho
  rcases List.mem_map.1 ho with ⟨p, hp, hpo⟩
  rw [← hpo]
  constructor
  · simp [prepareOneOption]
  · have hsel := select_distinct_length (headDocD p.2)
      (_prioritize_documents_for_anchor (headDocD p.2) p.2)
      (max 0 (ek - 1))
    simp only [prepareOneOption, List.length_cons]
    by_cases hek : 1 ≤ ek
    · have hm0 : max (0 : Int) (ek - 1) = ek - 1 := max_eq_right (by omega)
      have hm1 : max (1 : Int) ek = ek := max_eq_right hek
      rw [hm0] at hsel ⊢
      rw [hm1]
      omega
    · have hm0 : max (0 : Int) (ek - 1) = 0 := max_eq_left (by omega)
      have hm1 : max (1 : Int) ek = 1 := max_eq_left (by omega)
      rw [hm0] at hsel ⊢
      rw [hm1]
      simp only [Int.toNat_zero, Nat.le_zero] at hsel
      omega

/-- Every option produced by _prepare_retrieval_options carries between 1
and max 1 effective_k documents. -/
theorem prepare_docs_bound (groups : List (List ScoredDocument))
    (cfg : AmbiguityConfig) (ek : Int) :
    ∀ o ∈ _prepare_retrieval_options groups cfg ek,
      1 ≤ o.docs.length ∧ (o.docs.length : Int) ≤ max 1 ek := by
  intro o ho
  unfold _prepare_retrieval_options at ho
  obtain ⟨o', ho', hdocs⟩ := dedup_docs_mem _ o ho
  rw [hdocs]
  exact prepare_raw_docs_bound groups cfg ek o' ho'

/-- Size and non-emptiness of the augmenter's output. -/
theorem augment_bounds (chosen : List Document)
    (cands : List ScoredDocument) (Q : Finset String) (fk : Int)
    (hQ : ¬ Q = ∅) (hfk : 1 ≤ fk) (hch : ¬ chosen = []) :
    ¬ _augment_docs_to_cover_entities chosen cands Q fk = [] ∧
      ((_augment_docs_to_cover_entities chosen cands Q fk).length : Int) ≤
        fk := by
  have h0 : ¬ (Q = ∅ ∨ fk ≤ 0) := by
    rintro (h | h)
    · exact hQ h
    · omega
  unfold _augment_docs_to_cover_entities
  rw [if_neg h0]
  dsimp only
  by_cases hmiss : Q \ docsCovered chosen = ∅
  · rw [if_pos hmiss]
    exact ⟨pySlice_ne_nil chosen fk hfk hch,
      pySlice_length_le_int chosen fk (by omega)⟩
  · rw [if_neg hmiss]
    by_cases htrim : fk ≤ (chosen.length : Int)
    · rw [if_pos htrim]
      dsimp only
      have hkeep : (1 : Int) ≤
          max 1 (fk - min (fk - 1) (max 1 ((Q \ docsCovered chosen).card : Int))) :=
        le_max_left _ _
      have htr_ne : ¬ pySlice chosen
          (max 1 (fk - min (fk - 1) (max 1 ((Q \ docsCovered chosen).card : Int)))) = [] :=
        pySlice_ne_nil chosen _ hkeep hch
      obtain ⟨ext, hext⟩ := augment_loop_prefix Q fk cands
        (pySlice chosen _) ((pySlice chosen _).map _doc_signature)
        (docsCovered (pySlice chosen _))
      constructor
      · apply pySlice_ne_nil _ fk hfk
        rw [hext]
        intro hcon
        rcases List.append_eq_nil.1 hcon with ⟨hl, _⟩
        exact htr_ne hl
      · exact pySlice_length_le_int _ fk (by omega)
    · rw [if_neg htrim]
      dsimp only
      obtain ⟨ext, hext⟩ := augment_loop_prefix Q fk cands chosen
        (chosen.map _doc_signature) (docsCovered chosen)
      constructor
      · apply pySlice_ne_nil _ fk hfk
        rw [hext]
        intro hcon
        rcases List.append_eq_nil.1 hcon with ⟨hl, _⟩
        exact hch hl
      · exact pySlice_length_le_int _ fk (by omega)

theorem groupInsert_ne_nil (sig : Sig) (sd : ScoredDocument) :
    ∀ acc, ¬ groupInsert sig sd acc = [] := by
  intro acc
  cases acc with
  | nil => simp [groupInsert]
  | cons b rest =>
    unfold groupInsert
    split_ifs <;> simp

theorem groupInsert_buckets_nonempty (sig : Sig) (sd : ScoredDocument) :
    ∀ (acc : List (Sig × List ScoredDocument)),
      (∀ b ∈ acc, ¬ b.2 = []) →
      ∀ b ∈ groupInsert sig sd acc, ¬ b.2 = [] := by
  intro acc
  induction acc with
  | nil =>
    intro _ b hb
    simp only [groupInsert, List.mem_singleton] at hb
    subst hb
    simp
  | cons a rest ih =>
    intro hacc b hb
    unfold groupInsert at hb
    split_ifs at hb with he
    · rcases List.mem_cons.1 hb with hb | hb
      · subst hb; simp
      · exact hacc b (List.mem_cons_of_mem _ hb)
    · rcases List.mem_cons.1 hb with hb | hb
      · exact hb ▸ hacc a (List.mem_cons_self _ _)
      · exact ih (fun x hx => hacc x (List.mem_cons_of_mem _ hx)) b hb

theorem foldl_buckets_nonempty (strict : Bool) :
    ∀ (scored : List ScoredDocument) (acc : List (Sig × List ScoredDocument)),
      (∀ b ∈ acc, ¬ b.2 = []) →
      ∀ b ∈ scored.foldl
        (fun acc sd => groupInsert (_safe_tag_signature sd.doc strict) sd acc)
        acc, ¬ b.2 = [] := by
  intro scored
  induction scored with
  | nil => intro acc h b hb; exact h b hb
  | cons sd rest ih =>
    intro acc h b hb
    exact ih _ (groupInsert_buckets_nonempty _ _ acc h) b hb

/-- Every bucket produced by grouping is non-empty. -/
theorem groups_nonempty (scored : List ScoredDocument) (strict : Bool) :
    ∀ g ∈ _group_scored_by_tag_signature scored strict, ¬ g = [] := by
  intro g hg
  unfold _group_scored_by_tag_signature at hg
  rw [mem_sortBy] at hg
  rcases List.mem_map.1 hg with ⟨b, hb, hbg⟩
  have hb2 := foldl_buckets_nonempty strict scored [] (by simp) b hb
  rw [← hbg]
  intro hcon
  apply hb2
  have hlen := congrArg List.length hcon
  rw [length_sortBy] at hlen
  exact List.length_eq_zero.1 hlen

theorem foldl_groupInsert_ne_nil (strict : Bool) :
    ∀ (l : List ScoredDocument) (acc : List (Sig × List ScoredDocument)),
      ¬ acc = [] →
      ¬ l.foldl
        (fun acc sd => groupInsert (_safe_tag_signature sd.doc strict) sd acc)
        acc = [] := by
  intro l
  induction l with
  | nil => intro acc h; simpa using h
  | cons sd rest ih =>
    intro acc h
    exact ih _ (groupInsert_ne_nil _ _ acc)

/-- Grouping a non-empty candidate list yields at least one bucket. -/
theorem groups_ne_nil (scored : List ScoredDocument) (strict : Bool)
    (h : ¬ scored = []) :
    ¬ _group_scored_by_tag_signature scored strict = [] := by
  unfold _group_scored_by_tag_signature
  intro hcon
  have hlen := congrArg List.length hcon
  rw [length_sortBy, List.length_map] at hlen
  rcases scored with _ | ⟨sd, rest⟩
  · exact h rfl
  · exact foldl_groupInsert_ne_nil strict rest
      (groupInsert (_safe_tag_signature sd.doc strict) sd [])
      (groupInsert_ne_nil _ _ [])
      (List.length_eq_zero.1 hlen)

/-- Every index recorded by the entity-resolve scoring refers to a
non-empty bucket. -/
theorem mem_scored_groups_nonempty (groups : List (List ScoredDocument))
    (query_id : Finset String) (t : Nat × Nat × ℚ)
    (ht : t ∈ entityScoredGroups groups query_id) :
    ¬ groups.getD t.1 [] = [] := by
  unfold entityScoredGroups at ht
  rcases List.mem_filterMap.1 ht with ⟨ig, hig, hf⟩
  rcases hg2 : ig.2 with _ | ⟨g0, grest⟩
  · rw [hg2] at hf; simp at hf
  · rw [hg2] at hf
    have ht1 : t.1 = ig.1 := by
      have := Option.some.inj hf
      rw [← this]
    have hgetd := (enumFrom_snd_getD [] 0 groups ig
      (by simpa [List.enum] using hig)).1
    simp only [Nat.sub_zero] at hgetd
    rw [ht1, hgetd, hg2]
    simp

/-- Every winner of the entity-resolve round refers to a non-empty
bucket. -/
theorem mem_winners_nonempty (groups : List (List ScoredDocument))
    (query_id : Finset String) (m : Nat) (w : Nat)
    (hw : w ∈ entityWinners (entityScoredGroups groups query_id) m) :
    ¬ groups.getD w [] = [] := by
  unfold entityWinners at hw
  rcases List.mem_filterMap.1 hw with ⟨t, ht, hif⟩
  split_ifs at hif with hm
  have := Option.some.inj hif
  rw [← this]
  exact mem_scored_groups_nonempty groups query_id t ht

/-- Every tie-ranking row refers back to a winner index. -/
theorem mem_ranked_idx (groups : List (List ScoredDocument))
    (query_id : Finset String) (winners : List Nat) (e : RankEntry)
    (he : e ∈ entityRanked groups query_id winners) : e.idx ∈ winners := by
  unfold entityRanked at he
  rw [mem_sortBy] at he
  rcases List.mem_map.1 he with ⟨idx, hidx, hie⟩
  rw [← hie]
  exact hidx

/-- Every bucket list returned by the entity-coverage resolver consists of
non-empty buckets. -/
theorem resolve_entity_groups_nonempty (groups : List (List ScoredDocument))
    (query : String) (cfg : AmbiguityConfig)
    (gs : List (List ScoredDocument))
    (hres : _resolve_by_entity_coverage groups query cfg = some gs) :
    ∀ g ∈ gs, ¬ g = [] := by
  unfold _resolve_by_entity_coverage at hres
  split_ifs at hres with h1
  · rcases hex : cfg.entity_extractor with _ | ex
    · rw [hex] at hres; simp at hres
    · rw [hex] at hres
      dsimp only at hres
      split_ifs at hres with h2 h3 h4 h5
      rcases hw : entityWinners
          (entityScoredGroups groups (ex.extract query).toFinset)
          (((entityScoredGroups groups
            (ex.extract query).toFinset).map (fun t => t.2.1)).foldl max 0)
        with _ | ⟨w, wrest⟩ <;> rw [hw] at hres
      · -- winners = []: the default match branch returns the narrowed list
        dsimp only at hres
        have hgs := Option.some.inj hres
        intro g hg
        rw [← hgs] at hg
        rw [mem_sortBy] at hg
        rcases List.mem_map.1 hg with ⟨e, he, heg⟩
        have := mem_ranked_idx groups (ex.extract query).toFinset [] e he
        simp at this
      · rcases hwr : wrest with _ | ⟨w2, wrest2⟩ <;> rw [hwr] at hres
        · -- a single winner
          dsimp only at hres
          have hgs := Option.some.inj hres
          intro g hg
          rw [← hgs] at hg
          rcases List.mem_singleton.1 hg with rfl
          exact mem_winners_nonempty groups (ex.extract query).toFinset _ w
            (by rw [hw]; exact List.mem_cons_self _ _)
        · -- two or more winners: the ranked branches
          dsimp only at hres
          rcases hrk : entityRanked groups (ex.extract query).toFinset
              (w :: w2 :: wrest2) with _ | ⟨top, _ | ⟨second, rrest⟩⟩ <;>
            rw [hrk] at hres
          · -- ranked = []: narrowed over []
            have hgs := Option.some.inj hres
            intro g hg
            rw [← hgs] at hg
            rw [mem_sortBy] at hg
            rcases List.mem_map.1 hg with ⟨e, he, heg⟩
            simp at he
          · -- ranked = [top]
            have hgs := Option.some.inj hres
            intro g hg
            rw [← hgs] at hg
            rw [mem_sortBy] at hg
            rcases List.mem_map.1 hg with ⟨e, he, heg⟩
            rcases List.mem_singleton.1 he with rfl
            rw [← heg]
            have hidx := mem_ranked_idx groups (ex.extract query).toFinset
              (w :: w2 :: wrest2) e
              (by rw [hrk]; exact List.mem_singleton.2 rfl)
            exact mem_winners_nonempty groups (ex.extract query).toFinset
              _ e.idx (by rw [hw, hwr]; exact hidx)
          · -- ranked has at least two rows
            dsimp only at hres
            split_ifs at hres with hcmp
            · have hgs := Option.some.inj hres
              intro g hg
              rw [← hgs] at hg
              rcases List.mem_singleton.1 hg with rfl
              have hidx := mem_ranked_idx groups (ex.extract query).toFinset
                (w :: w2 :: wrest2) top
                (by rw [hrk]; exact List.mem_cons_self _ _)
              exact mem_winners_nonempty groups (ex.extract query).toFinset
                _ top.idx (by rw [hw, hwr]; exact hidx)
            · have hgs := Option.some.inj hres
              intro g hg
              rw [← hgs] at hg
              rw [mem_sortBy] at hg
              rcases List.mem_map.1 hg with ⟨e, he, heg⟩
              rw [← heg]
              have hidx := mem_ranked_idx groups (ex.extract query).toFinset
                (w :: w2 :: wrest2) e (by rw [hrk]; exact he)
              exact mem_winners_nonempty groups (ex.extract query).toFinset
                _ e.idx (by rw [hw, hwr]; exact hidx)

/-- Size and non-emptiness of _ensure_entities_coverage. -/
theorem ensure_bounds (scored : List ScoredDocument) (docs : List Document)
    (query : String) (fk : Int) (cfg : AmbiguityConfig)
    (hd : ¬ docs = []) (hlen : (docs.length : Int) ≤ fk) (hfk : 1 ≤ fk) :
    ¬ _ensure_entities_coverage scored docs query fk cfg = [] ∧
      ((_ensure_entities_coverage scored docs query fk cfg).length : Int) ≤
        fk := by
  unfold _ensure_entities_coverage
  rcases cfg.entity_extractor with _ | ex
  · exact ⟨hd, hlen⟩
  · dsimp only
    by_cases hq : ((ex.extract query).toFinset : Finset String) = ∅
    · rw [if_pos hq]
      exact ⟨hd, hlen⟩
    · rw [if_neg hq]
      exact augment_bounds docs scored _ fk hq hfk hd

/-- The score-gap resolver returns the head bucket, which is non-empty
whenever every bucket is. -/
theorem gap_docs_ne_nil (cfg : AmbiguityConfig) :
    ∀ (groups : List (List ScoredDocument)) (docs : List Document),
    (∀ g ∈ groups, ¬ g = []) →
    _resolve_by_groups_score_gap groups cfg = some docs → ¬ docs = [] := by
  intro groups docs hne h
  unfold _resolve_by_groups_score_gap at h
  rcases hmg : cfg.min_group_gap with _ | mg <;> rw [hmg] at h
  · rcases groups with _ | ⟨g0, _ | ⟨g1, grest⟩⟩ <;> simp at h
  · rcases groups with _ | ⟨g0, _ | ⟨g1, grest⟩⟩
    · simp at h
    · simp at h
    · dsimp only at h
      split_ifs at h with hgap
      have hd := Option.some.inj h
      rw [← hd]
      have h0 : ¬ g0 = [] := hne g0 (List.mem_cons_self _ _)
      simpa using h0

/-- The signature tie-break never returns an empty document list. -/
theorem tiebreak_sig_ne_nil (sqrtq : ℚ → ℚ)
    (groups : List (List ScoredDocument)) (query : String)
    (cfg : AmbiguityConfig) (docs : List Document)
    (h : _tiebreak_signature_embedding sqrtq groups query cfg = some docs) :
    ¬ docs = [] := by
  unfold _tiebreak_signature_embedding at h
  split_ifs at h with h1
  rcases hemb : cfg.embed_docs with _ | embed <;> rw [hemb] at h
  · simp at h
  · dsimp only at h
    split at h
    · simp at h
    · split at h
      · simp at h
      · split_ifs at h with hg
        have hd := Option.some.inj h
        rw [← hd]
        simpa using hg

/-- The anchor tie-break never returns an empty document list. -/
theorem tiebreak_anchor_ne_nil (sqrtq : ℚ → ℚ)
    (groups : List (List ScoredDocument)) (query : String)
    (cfg : AmbiguityConfig) (docs : List Document)
    (h : _tiebreak_anchor_embedding sqrtq groups query cfg = some docs) :
    ¬ docs = [] := by
  unfold _tiebreak_anchor_embedding at h
  split_ifs at h with h1 h2
  rcases hemb : cfg.embed_docs with _ | embed <;> rw [hemb] at h
  · simp at h
  · dsimp only at h
    split at h
    · simp at h
    · split_ifs at h with hg
      have hd := Option.some.inj h
      rw [← hd]
      simpa using hg

/-- The combined query-aware tie-break never returns an empty document
list. -/
theorem tiebreak_ne_nil (sqrtq : ℚ → ℚ)
    (groups : List (List ScoredDocument)) (query : String)
    (cfg : AmbiguityConfig) (docs : List Document)
    (h : _tiebreak_groups_by_query_aware sqrtq groups query cfg =
      some docs) : ¬ docs = [] := by
  unfold _tiebreak_groups_by_query_aware at h
  rcases hemb : cfg.embed_docs with _ | embed <;> rw [hemb] at h
  · simp at h
  · dsimp only at h
    split_ifs at h with h2
    rcases hsig : _tiebreak_signature_embedding sqrtq
        (groups.filter (fun g => ! g.isEmpty)) query cfg with _ | d0 <;>
      rw [hsig] at h
    · exact tiebreak_anchor_ne_nil sqrtq _ query cfg docs h
    · have hd := Option.some.inj h
      rw [← hd]
      exact tiebreak_sig_ne_nil sqrtq _ query cfg d0 hsig

/-- Invariant of the ambiguity resolver: auto-resolved documents are
non-empty and at most effective_k = max 1 final_k many, and every produced
option carries between 1 and effective_k documents. -/
theorem resolve_invariant (sqrtq : ℚ → ℚ) (scored : List ScoredDocument)
    (query : String) (final_k : Int) (cfg : AmbiguityConfig) :
    ((_resolve_tag_ambiguity sqrtq scored query final_k cfg).2.1 = true →
      ¬ (_resolve_tag_ambiguity sqrtq scored query final_k cfg).2.2 = [] ∧
        (((_resolve_tag_ambiguity sqrtq scored query final_k
            cfg).2.2).length : Int) ≤ max 1 final_k) ∧
      ∀ o ∈ (_resolve_tag_ambiguity sqrtq scored query final_k cfg).1,
        1 ≤ o.docs.length ∧ (o.docs.length : Int) ≤ max 1 final_k := by
  have hek : (1 : Int) ≤ max 1 final_k := le_max_left _ _
  have hmax : max 1 (max 1 final_k) = max 1 final_k := by
    rw [← max_assoc, max_self]
  rcases hsc : scored with _ | ⟨s0, srest⟩
  · constructor
    · intro hf
      simp [_resolve_tag_ambiguity] at hf
    · intro o ho
      simp [_resolve_tag_ambiguity] at ho
  · unfold _resolve_tag_ambiguity
    dsimp only
    generalize hG : _group_scored_by_tag_signature (s0 :: srest)
      cfg.strict_sig = G
    have hGne : ¬ G = [] := by
      rw [← hG]
      exact groups_ne_nil _ _ (by simp)
    have hGall : ∀ g ∈ G, ¬ g = [] := by
      rw [← hG]
      exact groups_nonempty _ _
    have hG2all : ∀ g ∈ (_resolve_by_entity_coverage G query cfg).getD G,
        ¬ g = [] := by
      rcases hre : _resolve_by_entity_coverage G query cfg with _ | gs
      · simpa using hGall
      · simpa using resolve_entity_groups_nonempty G query cfg gs hre
    split_ifs with h1 h2 h3 h4
    · constructor
      · intro hf
        simp at hf
      · intro o ho
        have hb := prepare_docs_bound G cfg (max 1 final_k) o
          (by simpa using ho)
        rw [hmax] at hb
        exact hb
    · constructor
      · intro _
        have hhead : ¬ G.headD [] = [] := by
          rcases G with _ | ⟨g0, grest⟩
          · exact absurd rfl hGne
          · exact hGall g0 (List.mem_cons_self _ _)
        have hd : ¬ (pySlice (G.headD []) (max 1 final_k)).map
            (fun sd => sd.doc) = [] := by
          intro hcon
          exact pySlice_ne_nil (G.headD []) (max 1 final_k) hek hhead
            (by simpa using hcon)
        have hl : (((pySlice (G.headD []) (max 1 final_k)).map
            (fun sd => sd.doc)).length : Int) ≤ max 1 final_k := by
          rw [List.length_map]
          exact pySlice_length_le_int _ _ (by omega)
        exact ensure_bounds (s0 :: srest) _ query (max 1 final_k) cfg
          hd hl hek
      · intro o ho
        simp at ho
    · constructor
      · intro hf
        simp at hf
      · intro o ho
        have hb := prepare_docs_bound G cfg (max 1 final_k) o
          (by simpa using ho)
        rw [hmax] at hb
        exact hb
    · constructor
      · intro _
        rcases hre : _resolve_by_entity_coverage G query cfg with _ | gs
        · rw [hre] at h4
          simp at h4
        · rw [hre] at h4
          simp only [Option.getD_some] at h4 ⊢
          have hgsall := resolve_entity_groups_nonempty G query cfg gs hre
          have hgsne : ¬ gs = [] := by
            intro hcon
            rw [hcon] at h4
            simp at h4
          have hhead : ¬ gs.headD [] = [] := by
            rcases gs with _ | ⟨g0, grest⟩
            · exact absurd rfl hgsne
            · exact hgsall g0 (List.mem_cons_self _ _)
          have hd : ¬ (pySlice (gs.headD []) (max 1 final_k)).map
              (fun sd => sd.doc) = [] := by
            intro hcon
            exact pySlice_ne_nil (gs.headD []) (max 1 final_k) hek hhead
              (by simpa using hcon)
          have hl : (((pySlice (gs.headD []) (max 1 final_k)).map
              (fun sd => sd.doc)).length : Int) ≤ max 1 final_k := by
            rw [List.length_map]
            exact pySlice_length_le_int _ _ (by omega)
          exact ensure_bounds (s0 :: srest) _ query (max 1 final_k) cfg
            hd hl hek
      · intro o ho
        simp at ho
    · rcases hgap : _resolve_by_groups_score_gap
          ((_resolve_by_entity_coverage G query cfg).getD G) cfg
        with _ | d0
      · rcases htb : _tiebreak_groups_by_query_aware sqrtq
            ((_resolve_by_entity_coverage G query cfg).getD G) query cfg
          with _ | w0
        · constructor
          · intro hf
            simp at hf
          · intro o ho
            have hb := prepare_docs_bound
              ((_resolve_by_entity_coverage G query cfg).getD G) cfg
              (max 1 final_k) o (by simpa using ho)
            rw [hmax] at hb
            exact hb
        · constructor
          · intro _
            have hw : ¬ w0 = [] := tiebreak_ne_nil sqrtq _ query cfg w0 htb
            have hd : ¬ pySlice w0 (max 1 final_k) = [] :=
              pySlice_ne_nil w0 (max 1 final_k) hek hw
            have hl : ((pySlice w0 (max 1 final_k)).length : Int) ≤
                max 1 final_k := pySlice_length_le_int _ _ (by omega)
            exact ensure_bounds (s0 :: srest) _ query (max 1 final_k) cfg
              hd hl hek
          · intro o ho
            simp at ho
      · constructor
        · intro _
          have hd0 : ¬ d0 = [] := gap_docs_ne_nil cfg _ d0 hG2all hgap
          have hd : ¬ pySlice d0 (max 1 final_k) = [] :=
            pySlice_ne_nil d0 (max 1 final_k) hek hd0
          have hl : ((pySlice d0 (max 1 final_k)).length : Int) ≤
              max 1 final_k := pySlice_length_le_int _ _ (by omega)
          exact ensure_bounds (s0 :: srest) _ query (max 1 final_k) cfg
            hd hl hek
        · intro o ho
          simp at ho

/-- Options field of a refusal state. -/
theorem refuse_state_opts_nil (s : RetrievalState) (r : String)
    (os : List RetrievalOption)
    (h : (_refuse_state s r).options = some os) : os = [] :=
  (Option.some.inj h).symm

/-- Options field of an ok state. -/
theorem ok_state_opts_nil (s : RetrievalState) (ds : List Document)
    (os : List RetrievalOption)
    (h : (_ok_state s ds).options = some os) : os = [] :=
  (Option.some.inj h).symm

/-- Status ok out of the first-call body bounds the documents between 1 and
final_k. -/
theorem fresh_ok_bounds (gcfg : GateConfig) (acfg : AmbiguityConfig)
    (sqrtq : ℚ → ℚ) (store : String → Int → List (Document × ℚ)) (fk : Int)
    (s : RetrievalState) (hfk : 1 ≤ gcfg.final_k)
    (hok : (retrieveFresh gcfg acfg sqrtq store fk s).status = some .ok) :
    1 ≤ (retrieveFresh gcfg acfg sqrtq store fk s).docs.length ∧
      ((retrieveFresh gcfg acfg sqrtq store fk s).docs.length : Int) ≤
        gcfg.final_k := by
  have hri := resolve_invariant sqrtq
    (fetch_scored_docs_l2 store (pyStrip s.input) fk) (pyStrip s.input)
    gcfg.final_k acfg
  rw [max_eq_right hfk] at hri
  unfold retrieveFresh at hok ⊢
  dsimp only at hok ⊢
  cases hst : (gate_scored_docs_l2
      (fetch_scored_docs_l2 store (pyStrip s.input) fk) gcfg).2 with
  | ok =>
    rw [hst] at hok
    by_cases hd : (gate_scored_docs_l2
        (fetch_scored_docs_l2 store (pyStrip s.input) fk) gcfg).1 = []
    · simp [hd, _refuse_state] at hok
    · simp only [if_neg hd, _ok_state]
      constructor
      · exact Nat.one_le_iff_ne_zero.2
          (fun hz => hd (List.length_eq_zero.1 hz))
      · exact gate_ok_docs_bound _ gcfg (by omega) _ (by rw [← hst])
  | refuse =>
    rw [hst] at hok
    simp [_refuse_state] at hok
  | ambiguous =>
    rw [hst] at hok
    by_cases hauto : (_resolve_tag_ambiguity sqrtq
        (fetch_scored_docs_l2 store (pyStrip s.input) fk) (pyStrip s.input)
        gcfg.final_k acfg).2.1 = true
    · have h1 := hri.1 hauto
      simp only [hauto, _ok_state]
      constructor
      · exact Nat.one_le_iff_ne_zero.2
          (fun hz => h1.1 (List.length_eq_zero.1 hz))
      · exact h1.2
    · rw [Bool.not_eq_true] at hauto
      rcases hopt : (_resolve_tag_ambiguity sqrtq
          (fetch_scored_docs_l2 store (pyStrip s.input) fk) (pyStrip s.input)
          gcfg.final_k acfg).1 with _ | ⟨o1, _ | ⟨o2, orest⟩⟩
      · simp [hauto, hopt, _refuse_state] at hok
      · have hb := hri.2 o1 (by rw [hopt]; exact List.mem_cons_self _ _)
        simp only [hauto, hopt, _ok_state]
        exact ⟨hb.1, hb.2⟩
      · simp [hauto, hopt, _ambiguous_state] at hok

/-- Every option carried by the first-call body satisfies the per-option
document bounds. -/
theorem fresh_opts_bounds (gcfg : GateConfig) (acfg : AmbiguityConfig)
    (sqrtq : ℚ → ℚ) (store : String → Int → List (Document × ℚ)) (fk : Int)
    (s : RetrievalState) (hfk : 1 ≤ gcfg.final_k) (os : List RetrievalOption)
    (hos : (retrieveFresh gcfg acfg sqrtq store fk s).options = some os) :
    ∀ o ∈ os, 1 ≤ o.docs.length ∧ (o.docs.length : Int) ≤ gcfg.final_k := by
  have hri := resolve_invariant sqrtq
    (fetch_scored_docs_l2 store (pyStrip s.input) fk) (pyStrip s.input)
    gcfg.final_k acfg
  rw [max_eq_right hfk] at hri
  intro o ho
  unfold retrieveFresh at hos
  dsimp only at hos
  cases hst : (gate_scored_docs_l2
      (fetch_scored_docs_l2 store (pyStrip s.input) fk) gcfg).2 with
  | ok =>
    rw [hst] at hos
    by_cases hd : (gate_scored_docs_l2
        (fetch_scored_docs_l2 store (pyStrip s.input) fk) gcfg).1 = []
    · simp [hd, _refuse_state] at hos
      subst hos
      simp at ho
    · simp [hd, _ok_state] at hos
      subst hos
      simp at ho
  | refuse =>
    rw [hst] at hos
    simp [_refuse_state] at hos
    subst hos
    simp at ho
  | ambiguous =>
    rw [hst] at hos
    by_cases hauto : (_resolve_tag_ambiguity sqrtq
        (fetch_scored_docs_l2 store (pyStrip s.input) fk) (pyStrip s.input)
        gcfg.final_k acfg).2.1 = true
    · simp [hauto, _ok_state] at hos
      subst hos
      simp at ho
    · rw [Bool.not_eq_true] at hauto
      rcases hopt : (_resolve_tag_ambiguity sqrtq
          (fetch_scored_docs_l2 store (pyStrip s.input) fk) (pyStrip s.input)
          gcfg.final_k acfg).1 with _ | ⟨o1, _ | ⟨o2, orest⟩⟩
      · simp [hauto, hopt, _refuse_state] at hos
        subst hos
        simp at ho
      · simp [hauto, hopt, _ok_state] at hos
        subst hos
        simp at ho
      · simp [hauto, hopt, _ambiguous_state] at hos
        subst hos
        exact hri.2 o (by rw [hopt]; exact ho)

/-- C9.  Terminal outcomes keep the ok-status document count in
[1, final_k]: the first conjunct bounds the docs of an ok outcome (for a
first call, or a second call whose incoming options obey the per-option
bound that every prior invocation establishes), and the second conjunct
re-establishes that per-option bound on the outcome's own options, so the
invariant carries across the selection round trip. -/
theorem C9_ok_docs_bounds (gcfg : GateConfig) (acfg : AmbiguityConfig)
    (sqrtq : ℚ → ℚ) (store : String → Int → List (Document × ℚ)) (fk : Int)
    (s : RetrievalState) (hfk : 1 ≤ gcfg.final_k)
    (hopts : ∀ os, s.options = some os → ∀ o ∈ os,
      1 ≤ o.docs.length ∧ (o.docs.length : Int) ≤ gcfg.final_k) :
    ((retrieveAndGateStep gcfg acfg sqrtq store fk s).status = some .ok →
      1 ≤ (retrieveAndGateStep gcfg acfg sqrtq store fk s).docs.length ∧
        ((retrieveAndGateStep gcfg acfg sqrtq store fk
            s).docs.length : Int) ≤ gcfg.final_k) ∧
      ∀ os, (retrieveAndGateStep gcfg acfg sqrtq store fk s).options =
          some os → ∀ o ∈ os, 1 ≤ o.docs.length ∧
        (o.docs.length : Int) ≤ gcfg.final_k := by
  rcases hso : s.selected_option with _ | sel <;>
    rcases ho : s.options with _ | ⟨_ | ⟨o0, os0⟩⟩ <;>
    rw [retrieveAndGateStep, hso, ho] <;>
    try exact ⟨fun hok => fresh_ok_bounds gcfg acfg sqrtq store fk s hfk hok,
      fun os hos o hmem =>
        fresh_opts_bounds gcfg acfg sqrtq store fk s hfk os hos o hmem⟩
  dsimp only
  rcases hf : (o0 :: os0).find? (fun opt => opt.option_id = sel) with
    _ | chosen <;> rw [hf]
  · constructor
    · intro hcon
      simp [_refuse_state] at hcon
    · intro os hos o hmem
      have hnil := refuse_state_opts_nil s _ os hos
      subst hnil
      simp at hmem
  · constructor
    · intro _
      exact hopts (o0 :: os0) ho chosen (List.mem_of_find?_eq_some hf)
    · intro os hos o hmem
      have hnil := ok_state_opts_nil s _ os hos
      subst hnil
      simp at hmem

/-- Witness for C9 at a concrete configuration: final_k is 4 and the input
state carries no options. -/
theorem C9_witness :
    ((retrieveAndGateStep configGateConfig {} (fun _ => 0) (fun _ _ => []) 50
        { input := "q" }).status = some .ok →
      1 ≤ (retrieveAndGateStep configGateConfig {} (fun _ => 0)
          (fun _ _ => []) 50 { input := "q" }).docs.length ∧
        ((retrieveAndGateStep configGateConfig {} (fun _ => 0)
            (fun _ _ => []) 50 { input := "q" }).docs.length : Int) ≤
          configGateConfig.final_k) ∧
      ∀ os, (retrieveAndGateStep configGateConfig {} (fun _ => 0)
          (fun _ _ => []) 50 { input := "q" }).options = some os →
        ∀ o ∈ os, 1 ≤ o.docs.length ∧
          (o.docs.length : Int) ≤ configGateConfig.final_k :=
  C9_ok_docs_bounds configGateConfig {} (fun _ => 0) (fun _ _ => []) 50
    { input := "q" } (by decide) (fun os h => Option.noConfusion h)

/-- Witness for C4: on the two-document example store the first call is
ambiguous with two options, and a second call selecting the option at index
1 performs no search (any store works) and returns exactly that option's
documents. -/
theorem C4_witness :
    retrieveAndGateStep exGateCfg {} (fun _ => 1) (fun _ _ => []) 7
        exState2 =
      _ok_state exState2 ((exOpts.get ⟨1, by decide⟩).docs) :=
  C4_round_trip exGateCfg {} (fun _ => 0) exStore 50 { input := "q" }
    exOpts 1 (by decide) (by decide) (by decide) exState2 (fun _ => 1)
    (fun _ _ => []) 7 rfl (by decide)

/-- Witness for C5: the ambiguous first call on the example store carries
at least two options with pairwise-distinct source signatures. -/
theorem C5_witness :
    ∃ os, (retrieveAndGateStep exGateCfg {} (fun _ => 0) exStore 50
        { input := "q" }).options = some os ∧ 2 ≤ os.length ∧
      os.Pairwise
        (fun a b => ¬ _option_signature a = _option_signature b) :=
  (C5_ambiguous_option_invariants exGateCfg {} (fun _ => 0) exStore 50
      { input := "q" } rfl).1 (by decide)

/-- Witness for C7: on a compare query matching entities ea and eb whose
documents cover only ea, the coverage gate refuses with the missing-entity
reason. -/
theorem C7_witness :
    coverage_gate exCovState exCovCfg =
      coverageRefuse exCovState
        ("Missing document coverage for: " ++
          String.intercalate (", ")
            (coverageMissing exCovCfg exCovState.input exCovState.docs)) :=
  (C7_coverage_gate_compare_rule exCovCfg exCovState rfl rfl rfl
      (by decide) (by decide)).1 (by decide) (by decide) (by decide)

end RagSpec
